import Mathlib

/-! Pseym: instrument parameter engine (`src/ui.c`).

A shallow embedding of the instrument store, the EIF codec, the register
protocol encoder and the voice allocator of `src/ui.c`, followed by theorems
about them.

Conventions of the embedding:

* a C array is a `List`; `rd`/`rdk` read an element, `wr8` stores into a
  `uint8_t` element (the stored value is reduced modulo 256), `List.set`
  stores into an `int` element;
* the file-scope variables of `ui.c` that the modelled functions touch are
  the fields of `State`;
* the chip driver (`audio.c`) is external: every call to it is recorded, in
  order, as an `FmCall`, with each argument converted to the `uint8_t`
  parameter type of the callee;
* `sel_op`, `sel_param` and `octave` are `int` in C; they are natural numbers
  here because every decrement in the source is guarded by a positivity test.
-/

set_option autoImplicit false

namespace Pseym

/-! ## Memory model and chip-driver calls -/

/-- Read element `i` of a `uint8_t` array. -/
def rd (a : List Nat) (i : Nat) : Nat := a.getD i 0

/-- Read element `i` of an `int` array. -/
def rdk (a : List Int) (i : Nat) : Int := a.getD i 0

/-- Store `v` into element `i` of a `uint8_t` array. -/
def wr8 (a : List Nat) (i : Nat) (v : Nat) : List Nat := a.set i (v % 256)

/-- Conversion of an `int` to `uint8_t`. -/
def u8 (v : Int) : Nat := (v % 256).toNat

/-- Calls into the chip driver (`fm_write_reg`, `fm_key_on`, `fm_key_off`,
`fm_enable_notes` of `audio.c`). -/
inductive FmCall where
  | write_reg (reg val part : Nat)
  | key_on (oct note chan : Nat)
  | key_off (chan : Nat)
  | enable_notes
  deriving DecidableEq, Repr

/-! ## Instrument parameters (enum at `ui.c:47`) -/

@[reducible] def TL : Nat := 0
@[reducible] def SL : Nat := 1
@[reducible] def AR : Nat := 2
@[reducible] def DR : Nat := 3
@[reducible] def SR : Nat := 4
@[reducible] def RR : Nat := 5
@[reducible] def MUL : Nat := 6
@[reducible] def DT : Nat := 7
@[reducible] def RS : Nat := 8
@[reducible] def FB : Nat := 9
@[reducible] def ALG : Nat := 10

@[reducible] def FB_OFFS : Nat := 36
@[reducible] def ALG_OFFS : Nat := 37

/-- The default sine wave instrument, `instr_default` (`ui.c:70`). -/
def instr_default : List Nat :=
  [0x00,
   0x01, 0x01, 0x01, 0x01,
   0x7F, 0x7F, 0x7F, 0x00,
   0x1F, 0x1F, 0x1F, 0x1F,
   0x00, 0x00, 0x00, 0x00,
   0x00, 0x00, 0x00, 0x00,
   0xFF, 0xFF, 0xFF, 0xFF]

/-- The file-scope variables of `ui.c` used by the modelled functions. -/
structure State where
  /-- `static uint8_t instr_params[38]` -/
  instr_params : List Nat
  /-- `static int pressed_keys[3]` -/
  pressed_keys : List Int
  /-- `static int octave` -/
  octave : Nat
  /-- `static int sel_op` -/
  sel_op : Nat
  /-- `static int sel_param` -/
  sel_param : Nat
  deriving DecidableEq, Repr

/-! ## Register dump and EIF codec -/

/-- One iteration of the loop of `write_eif_regs` (`ui.c:171`). -/
def write_eif_regs_iter (instr : List Nat) (chan : Nat) (i : Nat) : List FmCall :=
  let part := 0
  let reg := (0x30 + (i <<< 4) + chan) % 256
  [FmCall.write_reg ((reg + 0) % 256) (rd instr ((i <<< 2) + 1)) part,
   FmCall.write_reg ((reg + 4) % 256) (rd instr ((i <<< 2) + 2)) part,
   FmCall.write_reg ((reg + 8) % 256) (rd instr ((i <<< 2) + 3)) part,
   FmCall.write_reg ((reg + 12) % 256) (rd instr ((i <<< 2) + 4)) part]

/-- The function `write_eif_regs` (`ui.c:167`): the calls it issues, in order. -/
def write_eif_regs (instr : List Nat) (chan : Nat) : List FmCall :=
  let part := 0
  (List.range 6).foldl (fun calls i => calls ++ write_eif_regs_iter instr chan i) []
    ++ [FmCall.write_reg ((0xB0 + (chan &&& 0x3)) % 256) (rd instr 0) part,
        FmCall.write_reg ((0xB4 + (chan &&& 0x3)) % 256) 0xC0 part]

/-- One iteration of the loop of `load_eif` (`ui.c:189`). -/
def load_eif_iter (instr : List Nat) (params : List Nat) (op : Nat) : List Nat :=
  let op_screen := if op = 1 then 2 else if op = 2 then 1 else op
  let params := wr8 params (MUL * 4 + op_screen) (rd instr (1 + op) &&& 0x0F)
  let params := wr8 params (DT * 4 + op_screen) ((rd instr (1 + op) >>> 4) &&& 0x07)
  let params := wr8 params (TL * 4 + op_screen) (rd instr (5 + op) &&& 0x7F)
  let params := wr8 params (AR * 4 + op_screen) (rd instr (9 + op) &&& 0x1F)
  let params := wr8 params (RS * 4 + op_screen) ((rd instr (9 + op) >>> 6) &&& 0x03)
  let params := wr8 params (DR * 4 + op_screen) (rd instr (13 + op) &&& 0x1F)
  let params := wr8 params (SR * 4 + op_screen) (rd instr (17 + op) &&& 0x1F)
  let params := wr8 params (SL * 4 + op_screen) ((rd instr (21 + op) >>> 4) &&& 0x0F)
  let params := wr8 params (RR * 4 + op_screen) (rd instr (21 + op) &&& 0x0F)
  params

/-- The function `load_eif` (`ui.c:185`): new state and the chip calls issued. -/
def load_eif (instr : List Nat) (st : State) : State × List FmCall :=
  let params := (List.range 4).foldl (load_eif_iter instr) st.instr_params
  let params := wr8 params FB_OFFS ((rd instr 0 >>> 3) &&& 0x07)
  let params := wr8 params ALG_OFFS (rd instr 0 &&& 0x07)
  ({ st with instr_params := params },
   write_eif_regs instr 0 ++ write_eif_regs instr 1 ++ write_eif_regs instr 2)

/-- One iteration of the loop of `save_eif` (`ui.c:225`). -/
def save_eif_iter (params : List Nat) (dest : List Nat) (op_screen : Nat) : List Nat :=
  let op := if op_screen = 1 then 2 else if op_screen = 2 then 1 else op_screen
  let dest := wr8 dest (1 + op) (rd params (MUL * 4 + op_screen))
  let dest := wr8 dest (1 + op) (rd dest (1 + op) ||| (rd params (DT * 4 + op_screen) <<< 4))
  let dest := wr8 dest (5 + op) (rd params (TL * 4 + op_screen))
  let dest := wr8 dest (9 + op) (rd params (AR * 4 + op_screen))
  let dest := wr8 dest (9 + op) (rd dest (9 + op) ||| (rd params (RS * 4 + op_screen) <<< 6))
  let dest := wr8 dest (13 + op) (rd params (DR * 4 + op_screen))
  let dest := wr8 dest (17 + op) (rd params (SR * 4 + op_screen))
  let dest := wr8 dest (21 + op) (rd params (RR * 4 + op_screen))
  let dest := wr8 dest (21 + op) (rd dest (21 + op) ||| (rd params (SL * 4 + op_screen) <<< 4))
  let dest := wr8 dest (25 + op) 0
  dest

/-- The function `save_eif` (`ui.c:219`): the contents of `dest` afterwards. -/
def save_eif (st : State) (dest : List Nat) : List Nat :=
  let dest := wr8 dest 0 (rd st.instr_params ALG_OFFS ||| (rd st.instr_params FB_OFFS <<< 3))
  (List.range 4).foldl (save_eif_iter st.instr_params) dest

/-! ## Parameter editing -/

/-- The function `change_param` (`ui.c:249`): new state and the chip calls
issued. The two `switch` statements have no `default`; for a `sel_param`
outside the enum the first leaves `max = 0` and the second leaves `reg`
indeterminate (taken as 0 here) and `val` as it was. -/
def change_param (inc high_nybble to_max : Bool) (st : State) : State × List FmCall :=
  let op : Nat := st.sel_op % 256
  let max : Nat :=
    if st.sel_param = AR then 0x1F
    else if st.sel_param = DR then 0x1F
    else if st.sel_param = SR then 0x1F
    else if st.sel_param = SL then 0x0F
    else if st.sel_param = RR then 0x0F
    else if st.sel_param = TL then 0x7F
    else if st.sel_param = MUL then 0x0F
    else if st.sel_param = DT then 0x07
    else if st.sel_param = RS then 0x03
    else if st.sel_param = FB then 0x07
    else if st.sel_param = ALG then 0x07
    else 0
  let offs : Nat :=
    if st.sel_param = FB then FB_OFFS
    else if st.sel_param = ALG then ALG_OFFS
    else st.sel_param * 4 + op
  let val : Int := (rd st.instr_params offs : Nat)
  let val : Int :=
    if inc then
      let val := val + (if high_nybble then 0x10 else 1)
      if to_max || decide (val > (max : Int)) then (max : Int) else val
    else
      let val := val - (if high_nybble then 0x10 else 1)
      if to_max || decide (val < 0) then 0 else val
  let params := wr8 st.instr_params offs (u8 val)
  let regval : Nat × Int :=
    if st.sel_param = DR then (0x60, (rd params (DR * 4 + op) : Nat))
    else if st.sel_param = SR then (0x70, (rd params (SR * 4 + op) : Nat))
    else if st.sel_param = TL then (0x40, (rd params (TL * 4 + op) : Nat))
    else if st.sel_param = RR ∨ st.sel_param = SL then
      (0x80, ((rd params (RR * 4 + op) ||| (rd params (SL * 4 + op) <<< 4) : Nat) : Int))
    else if st.sel_param = MUL ∨ st.sel_param = DT then
      (0x30, ((rd params (MUL * 4 + op) ||| (rd params (DT * 4 + op) <<< 4) : Nat) : Int))
    else if st.sel_param = RS ∨ st.sel_param = AR then
      (0x50, ((rd params (AR * 4 + op) ||| (rd params (RS * 4 + op) <<< 6) : Nat) : Int))
    else if st.sel_param = FB ∨ st.sel_param = ALG then
      (0xB0, ((rd params ALG_OFFS ||| (rd params FB_OFFS <<< 3) : Nat) : Int))
    else (0, val)
  let val := regval.2
  let reg : Nat :=
    if st.sel_param ≠ FB ∧ st.sel_param ≠ ALG then
      let op := if st.sel_op = 1 then 2 else if st.sel_op = 2 then 1 else op
      (regval.1 + (op <<< 2)) % 256
    else regval.1
  ({ st with instr_params := params },
   [FmCall.write_reg ((reg + 0) % 256) (u8 val) 0,
    FmCall.write_reg ((reg + 1) % 256) (u8 val) 0,
    FmCall.write_reg ((reg + 2) % 256) (u8 val) 0])

/-! ## Voice allocator -/

/-- The loop of `key_off` (`ui.c:415`), from index `i`, with `n` iterations left. -/
def key_off_loop (key : Int) (st : State) : Nat → Nat → State × List FmCall
  | _, 0 => (st, [])
  | i, n + 1 =>
    if rdk st.pressed_keys i = key then
      ({ st with pressed_keys := st.pressed_keys.set i (-1) }, [FmCall.key_off (i % 256)])
    else key_off_loop key st (i + 1) n

/-- The function `key_off` (`ui.c:411`). -/
def key_off (key : Int) (st : State) : State × List FmCall :=
  key_off_loop key st 0 3

/-- The loop of `key_on` (`ui.c:429`), from index `i`, with `n` iterations left. -/
def key_on_loop (key oct note : Int) (st : State) : Nat → Nat → State × List FmCall
  | _, 0 => (st, [])
  | i, n + 1 =>
    if rdk st.pressed_keys i = -1 then
      ({ st with pressed_keys := st.pressed_keys.set i key },
       [FmCall.key_on (u8 oct) (u8 note) (i % 256)])
    else key_on_loop key oct note st (i + 1) n

/-- The function `key_on` (`ui.c:425`). -/
def key_on (key oct note : Int) (st : State) : State × List FmCall :=
  key_on_loop key oct note st 0 3

/-! ## Loading from a file and start-up -/

/-- An open input stream: the bytes of the file, the read position and the
end-of-file indicator. -/
structure Stream where
  data : List Nat
  pos : Nat
  eof : Bool
  deriving DecidableEq, Repr

/-- The call `fread(&byte, 1, 1, f)`: the byte read, if any, and the stream
afterwards. A read at the end of the data sets the end-of-file indicator. -/
def fread1 (f : Stream) : Option Nat × Stream :=
  match f.data.get? f.pos with
  | some b => (some b, { f with pos := f.pos + 1 })
  | none => (none, { f with eof := true })

/-- The loop of `load_eif_file` (`ui.c:369`), with `n` iterations left before
`num_bytes` reaches 29: `none` when the function returns `false` from inside
the loop, else the contents of `bytes`. -/
def load_eif_file_loop : Stream → List Nat → Nat → Nat → Option (List Nat)
  | _, bytes, _, 0 => some bytes
  | f, bytes, num_bytes, n + 1 =>
    if f.eof then none
    else
      match fread1 f with
      | (some b, f2) => load_eif_file_loop f2 (wr8 bytes num_bytes b) (num_bytes + 1) n
      | (none, _) => none

/-- The function `load_eif_file` (`ui.c:359`). The file is `none` when `fopen`
fails, else its bytes. Result: the returned flag, the new state and the chip
calls issued. The local array `bytes` starts with indeterminate contents
(taken as zeros); all of it is overwritten before it is used. -/
def load_eif_file (file : Option (List Nat)) (st : State) : Bool × State × List FmCall :=
  match file with
  | none => (false, st, [])
  | some data =>
    match load_eif_file_loop ⟨data, 0, false⟩ (List.replicate 29 0) 0 29 with
    | none => (false, st, [])
    | some bytes =>
      let r := load_eif bytes st
      (true, r.1, r.2)

/-- The variables of `State` before `ui_init`: static storage is zero-initialised. -/
def state_zero : State :=
  { instr_params := List.replicate 38 0, pressed_keys := [0, 0, 0],
    octave := 0, sel_op := 0, sel_param := 0 }

/-- The function `ui_init` (`ui.c:563`) on the path where the SDL window,
renderer and texture are created; `file` is the file `instr.eif`. -/
def ui_init (file : Option (List Nat)) (st : State) : State × List FmCall :=
  let st := { st with pressed_keys := ((st.pressed_keys.set 0 (-1)).set 1 (-1)).set 2 (-1) }
  let st := { st with sel_op := 0, sel_param := 0, octave := 3 }
  let r1 := load_eif instr_default st
  let r2 := load_eif_file file r1.1
  (r2.2.1, r1.2 ++ r2.2.2 ++ [FmCall.enable_notes])

/-! ## Vocabulary of the specification -/

/-- The operator transposition (0,2,1,3) between the internal operator index
and the persisted / register operator slot. -/
def perm (k : Nat) : Nat := if k = 1 then 2 else if k = 2 then 1 else k

/-- Maximum value of each parameter kind, as tabulated in the specification
(TL, SL, AR, DR, SR, RR, MUL, DT, RS, FB, ALG). -/
def max_value (kind : Nat) : Nat :=
  [0x7F, 0x0F, 0x1F, 0x1F, 0x1F, 0x0F, 0x0F, 0x07, 0x03, 0x07, 0x07].getD kind 0

/-- Offset in `instr_params` of the value of `kind` for operator `op`
(kind-major layout, the two global values last). -/
def offs_of (kind op : Nat) : Nat :=
  if kind = FB then FB_OFFS else if kind = ALG then ALG_OFFS else kind * 4 + op

/-- The parameter array has its 38 entries and every value lies in
`[0, max_value kind]`. -/
def InRange (params : List Nat) : Prop :=
  params.length = 38 ∧
  (∀ kind, kind < 9 → ∀ op, op < 4 → rd params (kind * 4 + op) ≤ max_value kind) ∧
  rd params FB_OFFS ≤ max_value FB ∧ rd params ALG_OFFS ≤ max_value ALG

instance (params : List Nat) : Decidable (InRange params) :=
  inferInstanceAs (Decidable (params.length = 38 ∧
    (∀ kind, kind < 9 → ∀ op, op < 4 → rd params (kind * 4 + op) ≤ max_value kind) ∧
    rd params FB_OFFS ≤ max_value FB ∧ rd params ALG_OFFS ≤ max_value ALG))

/-- States reachable from the state left by `ui_init` through `load_eif` on
any byte array and `change_param` under any valid selection and any flags. -/
inductive StoreReachable : State → Prop
  | init (file : Option (List Nat)) : StoreReachable (ui_init file state_zero).1
  | load (instr : List Nat) (st : State) :
      StoreReachable st → StoreReachable (load_eif instr st).1
  | change (inc high_nybble to_max : Bool) (op param : Nat) (st : State) :
      StoreReachable st → op < 4 → param ≤ 10 →
      StoreReachable
        (change_param inc high_nybble to_max { st with sel_op := op, sel_param := param }).1

/-- The EIF byte layout of a parameter array: what the bytes `d` must be for
the values `params`. -/
def EncodeLayout (params d : List Nat) : Prop :=
  d.length = 29 ∧
  rd d 0 = rd params ALG_OFFS ||| (rd params FB_OFFS <<< 3) ∧
  (∀ k, k < 4 →
    rd d (1 + perm k) = rd params (MUL * 4 + k) ||| (rd params (DT * 4 + k) <<< 4) ∧
    rd d (5 + perm k) = rd params (TL * 4 + k) ∧
    rd d (9 + perm k) = rd params (AR * 4 + k) ||| (rd params (RS * 4 + k) <<< 6) ∧
    rd d (13 + perm k) = rd params (DR * 4 + k) ∧
    rd d (17 + perm k) = rd params (SR * 4 + k) ∧
    rd d (21 + perm k) = rd params (RR * 4 + k) ||| (rd params (SL * 4 + k) <<< 4)) ∧
  (∀ i, 25 ≤ i → i < 29 → rd d i = 0)

/-- An in-range instrument whose four operators all differ, used to
instantiate the theorems. -/
def sample_state : State :=
  { instr_params :=
      [0x7F, 0x10, 0x20, 0x30,
       0x01, 0x02, 0x03, 0x0F,
       0x1F, 0x01, 0x02, 0x03,
       0x04, 0x05, 0x06, 0x07,
       0x08, 0x09, 0x0A, 0x0B,
       0x0C, 0x0D, 0x0E, 0x0F,
       0x01, 0x02, 0x03, 0x04,
       0x05, 0x06, 0x07, 0x00,
       0x00, 0x01, 0x02, 0x03,
       0x05, 0x06],
    pressed_keys := [-1, -1, -1], octave := 3, sel_op := 0, sel_param := 0 }

/-- A 29-byte buffer with arbitrary prior contents. -/
def sample_dest : List Nat := List.replicate 29 0xAA

/-- Step of an edit: 1, or 0x10 with the high-nybble modifier. -/
def step (high_nybble : Bool) : Int := if high_nybble then 0x10 else 1

/-- The saturating edit of the specification applied to a stored value `v` of
`kind`: jump to the boundary with `to_max`, else add or subtract the step and
clamp to `[0, max_value kind]`. -/
def saturated (inc high_nybble to_max : Bool) (kind : Nat) (v : Nat) : Int :=
  if to_max then (if inc then (max_value kind : Int) else 0)
  else if inc then min ((v : Int) + step high_nybble) (max_value kind)
  else max ((v : Int) - step high_nybble) 0

/-- A state reached by loading 29 bytes with every bit set and then raising
TL of operator 1 by a high-nybble step. -/
def sample_reached : State :=
  (change_param true true false
    { (load_eif (List.replicate 29 0xFF) (ui_init none state_zero).1).1 with
      sel_op := 1, sel_param := TL }).1

/-- The sample instrument with TL of operator 0 (stored value 0x7F) selected. -/
def sample_edit : State := { sample_state with sel_op := 0, sel_param := TL }

/-- A state with slot 0 held by key 122 and slots 1 and 2 free. -/
def sample_one_held : State := { sample_state with pressed_keys := [122, -1, -1] }

/-- A state with all three slots held, by keys 122, 120 and 99. -/
def sample_all_held : State := { sample_state with pressed_keys := [122, 120, 99] }

/-- Register base address of each per-operator kind (specification 4.4):
0x30 for MUL/DT, 0x40 for TL, 0x50 for AR/RS, 0x60 for DR, 0x70 for SR,
0x80 for RR/SL. -/
def reg_base (kind : Nat) : Nat :=
  if kind = MUL ∨ kind = DT then 0x30
  else if kind = TL then 0x40
  else if kind = AR ∨ kind = RS then 0x50
  else if kind = DR then 0x60
  else if kind = SR then 0x70
  else 0x80

/-- Register value of a per-operator kind recombined from the store for
operator `k`: MUL|DT<<4, TL, AR|RS<<6, DR, SR, RR|SL<<4. -/
def reg_value (params : List Nat) (kind k : Nat) : Nat :=
  if kind = MUL ∨ kind = DT then rd params (MUL * 4 + k) ||| (rd params (DT * 4 + k) <<< 4)
  else if kind = TL then rd params (TL * 4 + k)
  else if kind = AR ∨ kind = RS then rd params (AR * 4 + k) ||| (rd params (RS * 4 + k) <<< 6)
  else if kind = DR then rd params (DR * 4 + k)
  else if kind = SR then rd params (SR * 4 + k)
  else rd params (RR * 4 + k) ||| (rd params (SL * 4 + k) <<< 4)

/-- The sample instrument with MUL of operator 1 selected. -/
def sample_mul : State := { sample_state with sel_op := 1, sel_param := MUL }

/-- The sample instrument with FB selected. -/
def sample_fb : State := { sample_state with sel_op := 0, sel_param := FB }

/-- The full register dump of an EIF byte array on channels 0, 1, 2, as issued
at the end of `load_eif` (`ui.c:213`). -/
def full_dump (instr : List Nat) : List FmCall :=
  write_eif_regs instr 0 ++ write_eif_regs instr 1 ++ write_eif_regs instr 2

/-- An array of `n` bytes. -/
def IsBytes (b : List Nat) (n : Nat) : Prop :=
  b.length = n ∧ ∀ i, i < n → rd b i < 256

instance (b : List Nat) (n : Nat) : Decidable (IsBytes b n) :=
  inferInstanceAs (Decidable (b.length = n ∧ ∀ i, i < n → rd b i < 256))

/-- The bits of EIF byte `i` that carry a parameter: 0x3F for byte 0, 0x7F for
bytes 1..8, 0xDF for bytes 9..12, 0x1F for bytes 13..20, 0xFF for bytes
21..24, none for the reserved bytes 25..28. -/
def eif_mask (i : Nat) : Nat :=
  if i = 0 then 0x3F
  else if i ≤ 8 then 0x7F
  else if i ≤ 12 then 0xDF
  else if i ≤ 20 then 0x1F
  else if i ≤ 24 then 0xFF
  else 0

/-- No reserved bit is set in bytes 0..24 of `b`. -/
def NoReservedBits (b : List Nat) : Prop :=
  ∀ i, i < 25 → rd b i &&& eif_mask i = rd b i

instance (b : List Nat) : Decidable (NoReservedBits b) :=
  inferInstanceAs (Decidable (∀ i, i < 25 → rd b i &&& eif_mask i = rd b i))

/-- A 29-byte input whose TL byte for persisted slot 0 has the reserved bit 7
set. -/
def sample_reserved : List Nat :=
  [0x00,
   0x01, 0x01, 0x01, 0x01,
   0x80, 0x7F, 0x7F, 0x00,
   0x1F, 0x1F, 0x1F, 0x1F,
   0x00, 0x00, 0x00, 0x00,
   0x00, 0x00, 0x00, 0x00,
   0xFF, 0xFF, 0xFF, 0xFF,
   0x00, 0x00, 0x00, 0x00]

/-- The default instrument followed by the four reserved zero bytes. -/
def sample_clean : List Nat := instr_default ++ [0, 0, 0, 0]

/-- The full dump on channel `c` as laid out in the specification: for each
register group `g` in 0..5 and persisted slot `p` in 0..3, byte `1+4g+p` to
register `0x30 + 16g + 4p + c`, then byte 0 to `0xB0 + c` and the mask 0xC0
to `0xB4 + c`, all with bank 0. -/
def dump_layout (b : List Nat) (c : Nat) : List FmCall :=
  (List.range 6).flatMap (fun g =>
    (List.range 4).map (fun p =>
      FmCall.write_reg (0x30 + 16 * g + 4 * p + c) (rd b (1 + 4 * g + p)) 0))
  ++ [FmCall.write_reg (0xB0 + c) (rd b 0) 0, FmCall.write_reg (0xB4 + c) 0xC0 0]

/-- A file of 30 bytes: the default instrument followed by five more bytes. -/
def sample_long_file : List Nat := instr_default ++ [0, 0, 0, 0, 0x55]

/-- A file of 28 bytes: the default instrument followed by three more bytes. -/
def sample_short_file : List Nat := instr_default ++ [0, 0, 0]

/-! ## Key handling -/

/-! Key codes of SDL2 (`SDL_keycode.h`, a library header outside the
repository): a printable key has its ASCII code, any other key has its
scancode with bit 30 set. -/

@[reducible] def SDLK_UP : Int := 1073741906
@[reducible] def SDLK_DOWN : Int := 1073741905
@[reducible] def SDLK_LEFT : Int := 1073741904
@[reducible] def SDLK_RIGHT : Int := 1073741903
@[reducible] def SDLK_HOME : Int := 1073741898
@[reducible] def SDLK_END : Int := 1073741901
@[reducible] def SDLK_PAGEUP : Int := 1073741899
@[reducible] def SDLK_PAGEDOWN : Int := 1073741902
@[reducible] def SDLK_F5 : Int := 1073741886
@[reducible] def SDLK_EQUALS : Int := 61
@[reducible] def SDLK_MINUS : Int := 45
@[reducible] def SDLK_COMMA : Int := 44
@[reducible] def SDLK_PERIOD : Int := 46
@[reducible] def SDLK_z : Int := 122
@[reducible] def SDLK_s : Int := 115
@[reducible] def SDLK_x : Int := 120
@[reducible] def SDLK_d : Int := 100
@[reducible] def SDLK_c : Int := 99
@[reducible] def SDLK_v : Int := 118
@[reducible] def SDLK_g : Int := 103
@[reducible] def SDLK_b : Int := 98
@[reducible] def SDLK_h : Int := 104
@[reducible] def SDLK_n : Int := 110
@[reducible] def SDLK_j : Int := 106
@[reducible] def SDLK_m : Int := 109
@[reducible] def SDLK_l : Int := 108
@[reducible] def SDLK_q : Int := 113
@[reducible] def SDLK_w : Int := 119
@[reducible] def SDLK_e : Int := 101
@[reducible] def SDLK_r : Int := 114
@[reducible] def SDLK_t : Int := 116
@[reducible] def SDLK_y : Int := 121
@[reducible] def SDLK_u : Int := 117
@[reducible] def SDLK_i : Int := 105
@[reducible] def SDLK_o : Int := 111
@[reducible] def SDLK_p : Int := 112
@[reducible] def SDLK_2 : Int := 50
@[reducible] def SDLK_3 : Int := 51
@[reducible] def SDLK_5 : Int := 53
@[reducible] def SDLK_6 : Int := 54
@[reducible] def SDLK_7 : Int := 55
@[reducible] def SDLK_9 : Int := 57
@[reducible] def SDLK_0 : Int := 48

/-- The function `save_eif_file` (`ui.c:386`): the 29 bytes it hands to
`fwrite` once the file is open. The local array `bytes` starts with
indeterminate contents (taken as zeros); `save_eif` overwrites all of it. -/
def save_eif_file (st : State) : List Nat := save_eif st (List.replicate 29 0)

/-- The first `switch` of `key_press` (`ui.c:441`): new state, chip calls
issued and, for F5, the bytes written to `instr.eif`. -/
def key_press_switch (sym : Int) (shift ctrl : Bool) (st : State) :
    State × List FmCall × Option (List Nat) :=
  if sym = SDLK_UP then
    ({ st with sel_param := if st.sel_param > 0 then st.sel_param - 1 else st.sel_param },
     [], none)
  else if sym = SDLK_DOWN then
    let sel_param := if st.sel_param < ALG then st.sel_param + 1 else st.sel_param
    let sel_param :=
      if st.sel_op ≠ 0 ∧ (sel_param = FB ∨ sel_param = ALG) then RS else sel_param
    ({ st with sel_param := sel_param }, [], none)
  else if sym = SDLK_LEFT then
    ({ st with
       sel_op :=
         if st.sel_op > 0 ∧ st.sel_param ≠ FB ∧ st.sel_param ≠ ALG then st.sel_op - 1
         else st.sel_op },
     [], none)
  else if sym = SDLK_RIGHT then
    ({ st with
       sel_op :=
         if st.sel_op < 3 ∧ st.sel_param ≠ FB ∧ st.sel_param ≠ ALG then st.sel_op + 1
         else st.sel_op },
     [], none)
  else if sym = SDLK_HOME then
    (if shift then { st with sel_op := 0 } else { st with sel_param := 0 }, [], none)
  else if sym = SDLK_END then
    (if shift then
       (if st.sel_param ≠ FB ∧ st.sel_param ≠ ALG then { st with sel_op := 3 } else st)
     else
       let sel_param := ALG
       let sel_param := if st.sel_op ≠ 0 then sel_param - 2 else sel_param
       { st with sel_param := sel_param },
     [], none)
  else if sym = SDLK_PAGEUP then
    ((change_param true shift ctrl st).1, (change_param true shift ctrl st).2, none)
  else if sym = SDLK_PAGEDOWN then
    ((change_param false shift ctrl st).1, (change_param false shift ctrl st).2, none)
  else if sym = SDLK_EQUALS then
    ({ st with octave := if st.octave < 7 then st.octave + 1 else st.octave }, [], none)
  else if sym = SDLK_MINUS then
    ({ st with octave := if st.octave > 0 then st.octave - 1 else st.octave }, [], none)
  else if sym = SDLK_F5 then
    (st, [], some (save_eif_file st))
  else (st, [], none)

/-- The second `switch` of `key_press` (`ui.c:520`): the note of a key, -1
when the key plays none, and what the key adds to the octave. -/
def key_note (sym : Int) : Int × Nat :=
  if sym = SDLK_z then (0, 0)
  else if sym = SDLK_s then (1, 0)
  else if sym = SDLK_x then (2, 0)
  else if sym = SDLK_d then (3, 0)
  else if sym = SDLK_c then (4, 0)
  else if sym = SDLK_v then (5, 0)
  else if sym = SDLK_g then (6, 0)
  else if sym = SDLK_b then (7, 0)
  else if sym = SDLK_h then (8, 0)
  else if sym = SDLK_n then (9, 0)
  else if sym = SDLK_j then (10, 0)
  else if sym = SDLK_m then (11, 0)
  else if sym = SDLK_COMMA then (0, 1)
  else if sym = SDLK_l then (1, 1)
  else if sym = SDLK_PERIOD then (2, 1)
  else if sym = SDLK_q then (0, 1)
  else if sym = SDLK_2 then (1, 1)
  else if sym = SDLK_w then (2, 1)
  else if sym = SDLK_3 then (3, 1)
  else if sym = SDLK_e then (4, 1)
  else if sym = SDLK_r then (5, 1)
  else if sym = SDLK_5 then (6, 1)
  else if sym = SDLK_t then (7, 1)
  else if sym = SDLK_6 then (8, 1)
  else if sym = SDLK_y then (9, 1)
  else if sym = SDLK_7 then (10, 1)
  else if sym = SDLK_u then (11, 1)
  else if sym = SDLK_i then (0, 2)
  else if sym = SDLK_9 then (1, 2)
  else if sym = SDLK_o then (2, 2)
  else if sym = SDLK_0 then (3, 2)
  else if sym = SDLK_p then (4, 2)
  else (-1, 0)

/-- The function `key_press` (`ui.c:439`): new state, chip calls issued and,
for F5, the bytes written to `instr.eif`. -/
def key_press (sym : Int) (shift ctrl is_repeat : Bool) (st : State) :
    State × List FmCall × Option (List Nat) :=
  let r := key_press_switch sym shift ctrl st
  if !is_repeat then
    let oct : Int := (r.1.octave : Nat) + ((key_note sym).2 : Nat)
    let note : Int := (key_note sym).1
    if note ≠ -1 then
      ((key_on sym oct note r.1).1, r.2.1 ++ (key_on sym oct note r.1).2, r.2.2)
    else r
  else r

/-- States reachable from the state left by `ui_init` through the events of
`ui_handle_events` (`ui.c:624`): `key_press` on a key-down event and `key_off`
on a key-up event. -/
inductive UiReachable : State → Prop
  | init (file : Option (List Nat)) : UiReachable (ui_init file state_zero).1
  | key_down (sym : Int) (shift ctrl is_repeat : Bool) (st : State) :
      UiReachable st → UiReachable (key_press sym shift ctrl is_repeat st).1
  | key_up (sym : Int) (st : State) :
      UiReachable st → UiReachable (key_off sym st).1

/-- The selection-state invariant: operator in 0..3, kind one of the 11, and
a global kind (FB, ALG) only with operator 0. -/
def SelectionOk (st : State) : Prop :=
  st.sel_op < 4 ∧ st.sel_param ≤ 10 ∧ ((st.sel_param = FB ∨ st.sel_param = ALG) → st.sel_op = 0)

instance (st : State) : Decidable (SelectionOk st) :=
  inferInstanceAs (Decidable (st.sel_op < 4 ∧ st.sel_param ≤ 10 ∧
    ((st.sel_param = FB ∨ st.sel_param = ALG) → st.sel_op = 0)))

/-- The state after start-up without `instr.eif`, then End (selecting ALG)
and Right. -/
def sample_after_keys : State :=
  (key_press SDLK_RIGHT false false false
    (key_press SDLK_END false false false (ui_init none state_zero).1).1).1

/-- The state after start-up without `instr.eif` and four presses of `=`,
which raise the octave from 3 to 7. -/
def sample_octave7 : State :=
  (key_press SDLK_EQUALS false false false
    (key_press SDLK_EQUALS false false false
      (key_press SDLK_EQUALS false false false
        (key_press SDLK_EQUALS false false false (ui_init none state_zero).1).1).1).1).1

/-- The sequence of EIF bytes of the default instrument as the specification
gives it: 25 bytes followed by 4 reserved zero bytes. -/
def default_bytes_spec : List Nat :=
  [0x00, 0x01, 0x01, 0x01, 0x01, 0x7F, 0x7F, 0x7F, 0x00, 0x1F, 0x1F, 0x1F, 0x1F,
   0x00, 0x00, 0x00, 0x00, 0x00, 0x00, 0x00, 0x00, 0xFF, 0xFF, 0xFF, 0xFF] ++ [0, 0, 0, 0]

/-! ## The chip as a register map -/

/-- The effect of one chip-driver call on the bank-0 register map: a write
with bank 0 sets its register, every other call leaves the map as it is. -/
def chip_write (chip : Nat → Nat) : FmCall → Nat → Nat
  | FmCall.write_reg reg val part, a => if part = 0 ∧ a = reg then val else chip a
  | _, a => chip a

/-- The register map after a sequence of calls. -/
def chip_run (chip : Nat → Nat) (calls : List FmCall) : Nat → Nat :=
  calls.foldl chip_write chip

/-- The register map holds what the call would write. -/
def ChipHolds (chip : Nat → Nat) : FmCall → Prop
  | FmCall.write_reg reg val _ => chip reg = val
  | _ => True

instance (chip : Nat → Nat) (c : FmCall) : Decidable (ChipHolds chip c) := by
  cases c <;> unfold ChipHolds <;> infer_instance

/-- At every address written by the full dump of `instr` on channels 0, 1, 2
the register map holds the value that dump writes there. -/
def ChipReflects (chip : Nat → Nat) (instr : List Nat) : Prop :=
  ∀ c, c ∈ full_dump instr → ChipHolds chip c

instance (chip : Nat → Nat) (instr : List Nat) : Decidable (ChipReflects chip instr) :=
  inferInstanceAs (Decidable (∀ c, c ∈ full_dump instr → ChipHolds chip c))

/-- The register map shows the parameter array `q`: on each channel, the
register of every per-operator kind and operator holds the value recombined
from `q`, the register at 0xB0 holds ALG | FB<<3 and the register at 0xB4
holds 0xC0. -/
def ChipImage (chip : Nat → Nat) (q : List Nat) : Prop :=
  ∀ c, c < 3 →
    (∀ kind, kind < 9 → ∀ k, k < 4 →
      chip (reg_base kind + 4 * perm k + c) = reg_value q kind k) ∧
    chip (0xB0 + c) = rd q ALG_OFFS ||| (rd q FB_OFFS <<< 3) ∧
    chip (0xB4 + c) = 0xC0

/-- The register map left by the full dump of the encoding of `sample_mul`. -/
def sample_chip : Nat → Nat :=
  chip_run (fun _ => 0) (full_dump (save_eif sample_mul sample_dest))

/-- No reserved bit is set anywhere in the 29 bytes of `b`: bytes 0..24 keep
within `eif_mask` and the reserved bytes 25..28 are zero. -/
def ReservedClear (b : List Nat) : Prop :=
  ∀ i, i < 29 → rd b i &&& eif_mask i = rd b i

instance (b : List Nat) : Decidable (ReservedClear b) :=
  inferInstanceAs (Decidable (∀ i, i < 29 → rd b i &&& eif_mask i = rd b i))

/-- A 29-byte input with every bit of every byte set. -/
def sample_all_bits : List Nat := List.replicate 29 0xFF

/-! ## Array and bit-field lemmas -/

theorem length_wr8 (a : List Nat) (i v : Nat) : (wr8 a i v).length = a.length := by
  simp [wr8]

theorem rd_wr8 (a : List Nat) (i v j : Nat) :
    rd (wr8 a i v) j = if i < a.length ∧ j = i then v % 256 else rd a j := by
  unfold rd wr8
  by_cases h : j = i
  · subst h
    by_cases hl : j < a.length
    · simp [hl, List.getD_eq_getElem?_getD, List.getElem?_set]
    · have hn : a[j]? = none := List.getElem?_eq_none (Nat.le_of_not_lt hl)
      simp [hl, hn, List.getD_eq_getElem?_getD, List.getElem?_set]
  · have h2 : ¬ i = j := fun e => h e.symm
    simp [h, h2, List.getD_eq_getElem?_getD, List.getElem?_set]

theorem ext_rd {a b : List Nat} (hl : a.length = b.length)
    (h : ∀ i, i < a.length → rd a i = rd b i) : a = b := by
  apply List.ext_getElem hl
  intro i h1 h2
  have := h i h1
  simpa [rd, List.getD_eq_getElem?_getD, h1, h2] using this

theorem range_four : List.range 4 = [0, 1, 2, 3] := by decide
theorem range_six : List.range 6 = [0, 1, 2, 3, 4, 5] := by decide

theorem land_mod (x m : Nat) (hm : m < 256) : (x &&& m) % 256 = x &&& m :=
  Nat.mod_eq_of_lt (lt_of_le_of_lt Nat.and_le_right hm)

theorem length_load_eif (instr : List Nat) (st : State) :
    (load_eif instr st).1.instr_params.length = st.instr_params.length := by
  simp [load_eif, load_eif_iter, range_four, length_wr8]

theorem load_eif_params (instr : List Nat) (st : State) (h : st.instr_params.length = 38)
    (k : Nat) (hk : k < 4) :
    rd (load_eif instr st).1.instr_params (MUL * 4 + k) = rd instr (1 + perm k) &&& 0x0F ∧
    rd (load_eif instr st).1.instr_params (DT * 4 + k) = (rd instr (1 + perm k) >>> 4) &&& 0x07 ∧
    rd (load_eif instr st).1.instr_params (TL * 4 + k) = rd instr (5 + perm k) &&& 0x7F ∧
    rd (load_eif instr st).1.instr_params (AR * 4 + k) = rd instr (9 + perm k) &&& 0x1F ∧
    rd (load_eif instr st).1.instr_params (RS * 4 + k) = (rd instr (9 + perm k) >>> 6) &&& 0x03 ∧
    rd (load_eif instr st).1.instr_params (DR * 4 + k) = rd instr (13 + perm k) &&& 0x1F ∧
    rd (load_eif instr st).1.instr_params (SR * 4 + k) = rd instr (17 + perm k) &&& 0x1F ∧
    rd (load_eif instr st).1.instr_params (SL * 4 + k) = (rd instr (21 + perm k) >>> 4) &&& 0x0F ∧
    rd (load_eif instr st).1.instr_params (RR * 4 + k) = rd instr (21 + perm k) &&& 0x0F := by
  interval_cases k <;>
    simp [load_eif, load_eif_iter, range_four, rd_wr8, length_wr8, h, perm, land_mod,
      TL, SL, AR, DR, SR, RR, MUL, DT, RS, FB_OFFS, ALG_OFFS]

theorem load_eif_globals (instr : List Nat) (st : State) (h : st.instr_params.length = 38) :
    rd (load_eif instr st).1.instr_params FB_OFFS = (rd instr 0 >>> 3) &&& 0x07 ∧
    rd (load_eif instr st).1.instr_params ALG_OFFS = rd instr 0 &&& 0x07 := by
  simp [load_eif, load_eif_iter, range_four, rd_wr8, length_wr8, h, land_mod, FB_OFFS, ALG_OFFS,
    TL, SL, AR, DR, SR, RR, MUL, DT, RS]

theorem length_save_eif (st : State) (dest : List Nat) :
    (save_eif st dest).length = dest.length := by
  simp [save_eif, save_eif_iter, range_four, length_wr8]

theorem save_eif_raw (st : State) (dest : List Nat) (h : dest.length = 29)
    (k : Nat) (hk : k < 4) :
    rd (save_eif st dest) (1 + perm k) =
      (rd st.instr_params (MUL * 4 + k) % 256 ||| (rd st.instr_params (DT * 4 + k) <<< 4)) % 256 ∧
    rd (save_eif st dest) (5 + perm k) = rd st.instr_params (TL * 4 + k) % 256 ∧
    rd (save_eif st dest) (9 + perm k) =
      (rd st.instr_params (AR * 4 + k) % 256 ||| (rd st.instr_params (RS * 4 + k) <<< 6)) % 256 ∧
    rd (save_eif st dest) (13 + perm k) = rd st.instr_params (DR * 4 + k) % 256 ∧
    rd (save_eif st dest) (17 + perm k) = rd st.instr_params (SR * 4 + k) % 256 ∧
    rd (save_eif st dest) (21 + perm k) =
      (rd st.instr_params (RR * 4 + k) % 256 ||| (rd st.instr_params (SL * 4 + k) <<< 4)) % 256 ∧
    rd (save_eif st dest) (25 + perm k) = 0 := by
  interval_cases k <;>
    simp [save_eif, save_eif_iter, range_four, rd_wr8, length_wr8, h, perm,
      TL, SL, AR, DR, SR, RR, MUL, DT, RS, FB_OFFS, ALG_OFFS]

theorem save_eif_raw_zero (st : State) (dest : List Nat) (h : dest.length = 29) :
    rd (save_eif st dest) 0 =
      (rd st.instr_params ALG_OFFS ||| (rd st.instr_params FB_OFFS <<< 3)) % 256 := by
  simp [save_eif, save_eif_iter, range_four, rd_wr8, length_wr8, h,
      TL, SL, AR, DR, SR, RR, MUL, DT, RS, FB_OFFS, ALG_OFFS]

theorem pack_nyb (m d : Nat) (hm : m ≤ 15) (hd : d ≤ 15) :
    (m % 256 ||| (d <<< 4)) % 256 = m ||| (d <<< 4) ∧
    (m ||| (d <<< 4)) &&& 15 = m ∧ ((m ||| (d <<< 4)) >>> 4) &&& 15 = d ∧
    m ||| (d <<< 4) < 256 := by
  have h : ∀ m, m < 16 → ∀ d, d < 16 →
      (m % 256 ||| (d <<< 4)) % 256 = m ||| (d <<< 4) ∧
      (m ||| (d <<< 4)) &&& 15 = m ∧ ((m ||| (d <<< 4)) >>> 4) &&& 15 = d ∧
      m ||| (d <<< 4) < 256 := by decide
  exact h m (by omega) d (by omega)

theorem pack_dt (m d : Nat) (hm : m ≤ 15) (hd : d ≤ 7) :
    ((m ||| (d <<< 4)) >>> 4) &&& 7 = d := by
  have h : ∀ m, m < 16 → ∀ d, d < 8 → ((m ||| (d <<< 4)) >>> 4) &&& 7 = d := by decide
  exact h m (by omega) d (by omega)

theorem pack_ar (a r : Nat) (ha : a ≤ 31) (hr : r ≤ 3) :
    (a % 256 ||| (r <<< 6)) % 256 = a ||| (r <<< 6) ∧
    (a ||| (r <<< 6)) &&& 31 = a ∧ ((a ||| (r <<< 6)) >>> 6) &&& 3 = r ∧
    a ||| (r <<< 6) < 256 := by
  have h : ∀ a, a < 32 → ∀ r, r < 4 →
      (a % 256 ||| (r <<< 6)) % 256 = a ||| (r <<< 6) ∧
      (a ||| (r <<< 6)) &&& 31 = a ∧ ((a ||| (r <<< 6)) >>> 6) &&& 3 = r ∧
      a ||| (r <<< 6) < 256 := by decide
  exact h a (by omega) r (by omega)

theorem pack_fb (a f : Nat) (ha : a ≤ 7) (hf : f ≤ 7) :
    (a ||| (f <<< 3)) % 256 = a ||| (f <<< 3) ∧
    (a ||| (f <<< 3)) &&& 7 = a ∧ ((a ||| (f <<< 3)) >>> 3) &&& 7 = f ∧
    a ||| (f <<< 3) < 256 := by
  have h : ∀ a, a < 8 → ∀ f, f < 8 →
      (a ||| (f <<< 3)) % 256 = a ||| (f <<< 3) ∧
      (a ||| (f <<< 3)) &&& 7 = a ∧ ((a ||| (f <<< 3)) >>> 3) &&& 7 = f ∧
      a ||| (f <<< 3) < 256 := by decide
  exact h a (by omega) f (by omega)

theorem mask_id (x m : Nat) (hm : m = 127 ∨ m = 31) (hx : x ≤ m) : x &&& m = x := by
  have h : ∀ x, x < 128 → (x ≤ 127 → x &&& 127 = x) ∧ (x ≤ 31 → x &&& 31 = x) := by decide
  rcases hm with rfl | rfl
  · exact (h x (by omega)).1 hx
  · exact (h x (by omega)).2 hx

theorem InRange.bounds {p : List Nat} (h : InRange p) (k : Nat) (hk : k < 4) :
    rd p (TL * 4 + k) ≤ 0x7F ∧ rd p (SL * 4 + k) ≤ 0x0F ∧ rd p (AR * 4 + k) ≤ 0x1F ∧
    rd p (DR * 4 + k) ≤ 0x1F ∧ rd p (SR * 4 + k) ≤ 0x1F ∧ rd p (RR * 4 + k) ≤ 0x0F ∧
    rd p (MUL * 4 + k) ≤ 0x0F ∧ rd p (DT * 4 + k) ≤ 0x07 ∧ rd p (RS * 4 + k) ≤ 0x03 :=
  ⟨h.2.1 0 (by decide) k hk, h.2.1 1 (by decide) k hk, h.2.1 2 (by decide) k hk,
   h.2.1 3 (by decide) k hk, h.2.1 4 (by decide) k hk, h.2.1 5 (by decide) k hk,
   h.2.1 6 (by decide) k hk, h.2.1 7 (by decide) k hk, h.2.1 8 (by decide) k hk⟩

theorem InRange.globals {p : List Nat} (h : InRange p) :
    rd p FB_OFFS ≤ 7 ∧ rd p ALG_OFFS ≤ 7 := ⟨h.2.2.1, h.2.2.2⟩

theorem inRange_of_bounds {p : List Nat} (hl : p.length = 38)
    (h : ∀ k, k < 4 →
      rd p (TL * 4 + k) ≤ 0x7F ∧ rd p (SL * 4 + k) ≤ 0x0F ∧ rd p (AR * 4 + k) ≤ 0x1F ∧
      rd p (DR * 4 + k) ≤ 0x1F ∧ rd p (SR * 4 + k) ≤ 0x1F ∧ rd p (RR * 4 + k) ≤ 0x0F ∧
      rd p (MUL * 4 + k) ≤ 0x0F ∧ rd p (DT * 4 + k) ≤ 0x07 ∧ rd p (RS * 4 + k) ≤ 0x03)
    (hg : rd p FB_OFFS ≤ 7 ∧ rd p ALG_OFFS ≤ 7) : InRange p := by
  refine ⟨hl, ?_, hg.1, hg.2⟩
  intro kind hkind op hop
  obtain ⟨h0, h1, h2, h3, h4, h5, h6, h7, h8⟩ := h op hop
  interval_cases kind
  · exact h0
  · exact h1
  · exact h2
  · exact h3
  · exact h4
  · exact h5
  · exact h6
  · exact h7
  · exact h8

theorem ext_params {a b : List Nat} (ha : a.length = 38) (hb : b.length = 38)
    (h : ∀ kind, kind < 9 → ∀ k, k < 4 → rd a (kind * 4 + k) = rd b (kind * 4 + k))
    (hfb : rd a FB_OFFS = rd b FB_OFFS) (halg : rd a ALG_OFFS = rd b ALG_OFFS) : a = b := by
  apply ext_rd (ha.trans hb.symm)
  intro i hi
  rw [ha] at hi
  by_cases h36 : i < 36
  · have := h (i / 4) (by omega) (i % 4) (by omega)
    rwa [Nat.div_add_mod' i 4] at this
  · have : i = 36 ∨ i = 37 := by omega
    rcases this with rfl | rfl
    · exact hfb
    · exact halg

theorem save_eif_inrange (st : State) (dest : List Nat) (hr : InRange st.instr_params)
    (hd : dest.length = 29) (k : Nat) (hk : k < 4) :
    rd (save_eif st dest) (1 + perm k) =
      rd st.instr_params (MUL * 4 + k) ||| (rd st.instr_params (DT * 4 + k) <<< 4) ∧
    rd (save_eif st dest) (5 + perm k) = rd st.instr_params (TL * 4 + k) ∧
    rd (save_eif st dest) (9 + perm k) =
      rd st.instr_params (AR * 4 + k) ||| (rd st.instr_params (RS * 4 + k) <<< 6) ∧
    rd (save_eif st dest) (13 + perm k) = rd st.instr_params (DR * 4 + k) ∧
    rd (save_eif st dest) (17 + perm k) = rd st.instr_params (SR * 4 + k) ∧
    rd (save_eif st dest) (21 + perm k) =
      rd st.instr_params (RR * 4 + k) ||| (rd st.instr_params (SL * 4 + k) <<< 4) ∧
    rd (save_eif st dest) (25 + perm k) = 0 := by
  obtain ⟨r1, r5, r9, r13, r17, r21, r25⟩ := save_eif_raw st dest hd k hk
  obtain ⟨bTL, bSL, bAR, bDR, bSR, bRR, bMUL, bDT, bRS⟩ := hr.bounds k hk
  refine ⟨?_, ?_, ?_, ?_, ?_, ?_, r25⟩
  · rw [r1]; exact (pack_nyb _ _ bMUL (by omega)).1
  · rw [r5]; exact Nat.mod_eq_of_lt (by omega)
  · rw [r9]; exact (pack_ar _ _ bAR bRS).1
  · rw [r13]; exact Nat.mod_eq_of_lt (by omega)
  · rw [r17]; exact Nat.mod_eq_of_lt (by omega)
  · rw [r21]; exact (pack_nyb _ _ bRR bSL).1

theorem save_eif_inrange_zero (st : State) (dest : List Nat) (hr : InRange st.instr_params)
    (hd : dest.length = 29) :
    rd (save_eif st dest) 0 =
      rd st.instr_params ALG_OFFS ||| (rd st.instr_params FB_OFFS <<< 3) := by
  rw [save_eif_raw_zero st dest hd]
  exact (pack_fb _ _ hr.globals.2 hr.globals.1).1

theorem perm_perm (k : Nat) : perm (perm k) = k := by
  unfold perm; split_ifs <;> omega

theorem perm_lt (k : Nat) (hk : k < 4) : perm k < 4 := by
  unfold perm; split_ifs <;> omega

theorem load_save_params (st st2 : State) (dest : List Nat) (hr : InRange st.instr_params)
    (h2 : st2.instr_params.length = 38) (hd : dest.length = 29) :
    (load_eif (save_eif st dest) st2).1.instr_params = st.instr_params := by
  apply ext_params (by rw [length_load_eif, h2]) hr.1
  · intro kind hkind k hk
    obtain ⟨l1, l2, l3, l4, l5, l6, l7, l8, l9⟩ := load_eif_params (save_eif st dest) st2 h2 k hk
    obtain ⟨s1, s5, s9, s13, s17, s21, -⟩ := save_eif_inrange st dest hr hd k hk
    obtain ⟨bTL, bSL, bAR, bDR, bSR, bRR, bMUL, bDT, bRS⟩ := hr.bounds k hk
    interval_cases kind
    · rw [l3, s5]; exact mask_id _ _ (Or.inl rfl) bTL
    · rw [l8, s21]; exact (pack_nyb _ _ bRR bSL).2.2.1
    · rw [l4, s9]; exact (pack_ar _ _ bAR bRS).2.1
    · rw [l6, s13]; exact mask_id _ _ (Or.inr rfl) bDR
    · rw [l7, s17]; exact mask_id _ _ (Or.inr rfl) bSR
    · rw [l9, s21]; exact (pack_nyb _ _ bRR bSL).2.1
    · rw [l1, s1]; exact (pack_nyb _ _ bMUL (by omega)).2.1
    · rw [l2, s1]; exact pack_dt _ _ bMUL bDT
    · rw [l5, s9]; exact (pack_ar _ _ bAR bRS).2.2.1
  · rw [(load_eif_globals _ st2 h2).1, save_eif_inrange_zero st dest hr hd]
    exact (pack_fb _ _ hr.globals.2 hr.globals.1).2.2.1
  · rw [(load_eif_globals _ st2 h2).2, save_eif_inrange_zero st dest hr hd]
    exact (pack_fb _ _ hr.globals.2 hr.globals.1).2.1

/-! ## C1, C2: EIF codec -/

/-- C1: for every in-range instrument state, `save_eif` into a 29-byte buffer
followed by `load_eif` on that buffer (whatever the 38-entry store holds by
then) restores exactly the same 38 values; in particular the value of every
per-operator kind at internal operator `k` reads back at operator `k`. -/
theorem eif_round_trip (st st2 : State) (dest : List Nat)
    (hr : InRange st.instr_params) (h2 : st2.instr_params.length = 38)
    (hd : dest.length = 29) :
    (load_eif (save_eif st dest) st2).1.instr_params = st.instr_params ∧
    ∀ kind, kind < 9 → ∀ k, k < 4 →
      rd (load_eif (save_eif st dest) st2).1.instr_params (kind * 4 + k)
        = rd st.instr_params (kind * 4 + k) := by
  have h := load_save_params st st2 dest hr h2 hd
  exact ⟨h, fun kind _ k _ => by rw [h]⟩

/-- Instance of C1 at `sample_state`, loading back over the zeroed store. -/
theorem eif_round_trip_witness :
    InRange sample_state.instr_params ∧
    (load_eif (save_eif sample_state sample_dest) state_zero).1.instr_params
      = sample_state.instr_params :=
  ⟨by decide,
   (eif_round_trip sample_state state_zero sample_dest (by decide) (by decide) (by decide)).1⟩

/-- C2: for every in-range instrument state `save_eif` produces 29 bytes with
byte 0 = ALG | FB<<3, for every internal operator `k` with slot `p = perm k`
byte 1+p = MUL | DT<<4, byte 5+p = TL, byte 9+p = AR | RS<<6, byte 13+p = DR,
byte 17+p = SR, byte 21+p = RR | SL<<4, and bytes 25..28 equal to 0. -/
theorem save_eif_encode_layout (st : State) (dest : List Nat)
    (hr : InRange st.instr_params) (hd : dest.length = 29) :
    EncodeLayout st.instr_params (save_eif st dest) := by
  refine ⟨by rw [length_save_eif, hd], save_eif_inrange_zero st dest hr hd, ?_, ?_⟩
  · intro k hk
    obtain ⟨s1, s5, s9, s13, s17, s21, -⟩ := save_eif_inrange st dest hr hd k hk
    exact ⟨s1, s5, s9, s13, s17, s21⟩
  · intro i h25 h29
    have h := (save_eif_inrange st dest hr hd (perm (i - 25)) (perm_lt _ (by omega))).2.2.2.2.2.2
    rw [perm_perm] at h
    rwa [show 25 + (i - 25) = i by omega] at h

/-- Instance of C2 at `sample_state`. -/
theorem save_eif_encode_layout_witness :
    InRange sample_state.instr_params ∧
    EncodeLayout sample_state.instr_params (save_eif sample_state sample_dest) :=
  ⟨by decide, save_eif_encode_layout sample_state sample_dest (by decide) (by decide)⟩

/-! ## C3, C4: parameter editing and the range invariant -/

set_option maxHeartbeats 1000000 in
theorem change_param_store (inc hn tm : Bool) (st : State)
    (hop : st.sel_op < 4) (hp : st.sel_param ≤ 10)
    (hv : rd st.instr_params (offs_of st.sel_param st.sel_op) < 256) :
    (change_param inc hn tm st).1 =
      { st with
        instr_params :=
          wr8 st.instr_params (offs_of st.sel_param st.sel_op)
            (saturated inc hn tm st.sel_param
              (rd st.instr_params (offs_of st.sel_param st.sel_op))).toNat } := by
  obtain ⟨p, pk, oc, so, sp⟩ := st
  simp only at hop hp hv ⊢
  have hso : so % 256 = so := Nat.mod_eq_of_lt (by omega)
  interval_cases sp <;>
    simp only [change_param, hso, offs_of] at hv ⊢ <;>
    simp [max_value, saturated, step, u8] at hv ⊢ <;>
    congr 1 <;>
    (cases inc <;> cases hn <;> cases tm <;> simp [max_def, min_def] <;> (try split_ifs) <;> omega)

theorem max_value_lt (kind : Nat) : max_value kind < 256 := by
  by_cases h : kind ≤ 10
  · interval_cases kind <;> decide
  · have h11 : ([0x7F, 0x0F, 0x1F, 0x1F, 0x1F, 0x0F, 0x0F, 0x07, 0x03, 0x07, 0x07] : List Nat).length
        ≤ kind := by simp; omega
    simp [max_value, List.getD_eq_getElem?_getD, List.getElem?_eq_none h11]

theorem saturated_bounds (inc hn tm : Bool) (kind v : Nat) (hv : v ≤ max_value kind) :
    0 ≤ saturated inc hn tm kind v ∧ saturated inc hn tm kind v ≤ max_value kind := by
  have hs : 0 ≤ step hn := by unfold step; split_ifs <;> omega
  unfold saturated
  cases inc <;> cases tm <;> simp [max_def, min_def] <;> (try split_ifs) <;> omega

theorem offs_of_lt (kind op : Nat) (hk : kind ≤ 10) (hop : op < 4) : offs_of kind op < 38 := by
  unfold offs_of FB_OFFS ALG_OFFS FB ALG
  split_ifs <;> omega

theorem inRange_rd_offs {p : List Nat} (hr : InRange p) (kind op : Nat) (hk : kind ≤ 10)
    (hop : op < 4) : rd p (offs_of kind op) ≤ max_value kind := by
  unfold offs_of
  split_ifs with h1 h2
  · subst h1; exact hr.2.2.1
  · subst h2; exact hr.2.2.2
  · exact hr.2.1 kind (by unfold FB ALG at *; omega) op hop

theorem inRange_wr8 {p : List Nat} (hr : InRange p) (kind op x : Nat) (hk : kind ≤ 10)
    (hop : op < 4) (hx : x ≤ max_value kind) : InRange (wr8 p (offs_of kind op) x) := by
  obtain ⟨hl, hb, hfb, halg⟩ := hr
  have hx2 : x % 256 ≤ max_value kind := le_trans (Nat.mod_le _ _) hx
  refine ⟨by rw [length_wr8, hl], ?_, ?_, ?_⟩
  · intro kind2 hk2 op2 hop2
    rw [rd_wr8]
    split_ifs with h
    · have : kind2 = kind := by
        have h2 := h.2
        unfold offs_of FB_OFFS ALG_OFFS FB ALG at h2
        split_ifs at h2 <;> omega
      subst this; exact hx2
    · exact hb kind2 hk2 op2 hop2
  · rw [rd_wr8]
    split_ifs with h
    · have : kind = FB := by
        have h2 := h.2
        unfold offs_of FB_OFFS ALG_OFFS FB ALG at h2
        unfold FB
        split_ifs at h2 <;> omega
      subst this; exact hx2
    · exact hfb
  · rw [rd_wr8]
    split_ifs with h
    · have : kind = ALG := by
        have h2 := h.2
        unfold offs_of FB_OFFS ALG_OFFS FB ALG at h2
        unfold ALG
        split_ifs at h2 <;> omega
      subst this; exact hx2
    · exact halg

theorem change_param_inRange (inc hn tm : Bool) (st : State) (hop : st.sel_op < 4)
    (hp : st.sel_param ≤ 10) (hr : InRange st.instr_params) :
    InRange (change_param inc hn tm st).1.instr_params := by
  have hv := inRange_rd_offs hr st.sel_param st.sel_op hp hop
  have hm := max_value_lt st.sel_param
  rw [change_param_store inc hn tm st hop hp (by omega)]
  apply inRange_wr8 hr _ _ _ hp hop
  have hb := saturated_bounds inc hn tm st.sel_param _ hv
  omega

theorem load_eif_inRange (instr : List Nat) (st : State) (h : st.instr_params.length = 38) :
    InRange (load_eif instr st).1.instr_params := by
  apply inRange_of_bounds (by rw [length_load_eif, h])
  · intro k hk
    obtain ⟨l1, l2, l3, l4, l5, l6, l7, l8, l9⟩ := load_eif_params instr st h k hk
    rw [l1, l2, l3, l4, l5, l6, l7, l8, l9]
    exact ⟨Nat.and_le_right, Nat.and_le_right, Nat.and_le_right, Nat.and_le_right,
      Nat.and_le_right, Nat.and_le_right, Nat.and_le_right, Nat.and_le_right, Nat.and_le_right⟩
  · rw [(load_eif_globals instr st h).1, (load_eif_globals instr st h).2]
    exact ⟨Nat.and_le_right, Nat.and_le_right⟩

theorem load_eif_file_inRange (file : Option (List Nat)) (st : State)
    (hr : InRange st.instr_params) : InRange (load_eif_file file st).2.1.instr_params := by
  unfold load_eif_file
  cases file with
  | none => exact hr
  | some data =>
    simp only
    cases load_eif_file_loop ⟨data, 0, false⟩ (List.replicate 29 0) 0 29 with
    | none => exact hr
    | some bytes => exact load_eif_inRange bytes st hr.1

theorem ui_init_inRange (file : Option (List Nat)) :
    InRange (ui_init file state_zero).1.instr_params := by
  unfold ui_init
  exact load_eif_file_inRange file _ (load_eif_inRange _ _ (by decide))

/-- C3: in every state reachable from the state left by `ui_init` through
`load_eif` (on any bytes) and `change_param` (any flags, `sel_op` in 0..3,
`sel_param` one of the 11 kinds) every stored value lies in
`[0, max_value kind]`, with the maxima TL=0x7F, SL=0x0F, AR=DR=SR=0x1F,
RR=MUL=0x0F, DT=0x07, RS=0x03, FB=ALG=0x07. -/
theorem store_range_invariant (st : State) (h : StoreReachable st) :
    InRange st.instr_params ∧
    [max_value TL, max_value SL, max_value AR, max_value DR, max_value SR, max_value RR,
      max_value MUL, max_value DT, max_value RS, max_value FB, max_value ALG]
      = [0x7F, 0x0F, 0x1F, 0x1F, 0x1F, 0x0F, 0x0F, 0x07, 0x03, 0x07, 0x07] := by
  refine ⟨?_, by decide⟩
  induction h with
  | init file => exact ui_init_inRange file
  | load instr st _ ih => exact load_eif_inRange instr st ih.1
  | change inc hn tm op param st _ hop hp ih =>
    exact change_param_inRange inc hn tm { st with sel_op := op, sel_param := param } hop hp ih

/-- Instance of C3 at `sample_reached`. -/
theorem store_range_invariant_witness :
    StoreReachable sample_reached ∧ InRange sample_reached.instr_params :=
  have hs : StoreReachable sample_reached :=
    StoreReachable.change true true false 1 TL _
      (StoreReachable.load (List.replicate 29 0xFF) _ (StoreReachable.init none))
      (by decide) (by decide)
  ⟨hs, (store_range_invariant sample_reached hs).1⟩

/-- C4: for every selected kind and operator holding the value `v`,
`change_param` stores exactly `min (v + step) max` when incrementing and
`max (v - step) 0` when decrementing (step 1, or 0x10 with the high-nybble
modifier), and `max` resp. 0 with the jump-to-boundary modifier; every other
stored value, and the rest of the state, is unchanged. -/
theorem change_param_saturating (inc high_nybble to_max : Bool) (st : State)
    (hop : st.sel_op < 4) (hp : st.sel_param ≤ 10) (hl : st.instr_params.length = 38)
    (hv : rd st.instr_params (offs_of st.sel_param st.sel_op) < 256) :
    (rd (change_param inc high_nybble to_max st).1.instr_params
        (offs_of st.sel_param st.sel_op) : Int)
      = saturated inc high_nybble to_max st.sel_param
          (rd st.instr_params (offs_of st.sel_param st.sel_op)) ∧
    (∀ j, j ≠ offs_of st.sel_param st.sel_op →
      rd (change_param inc high_nybble to_max st).1.instr_params j = rd st.instr_params j) ∧
    (change_param inc high_nybble to_max st).1.instr_params.length = 38 ∧
    (change_param inc high_nybble to_max st).1.pressed_keys = st.pressed_keys ∧
    (change_param inc high_nybble to_max st).1.octave = st.octave ∧
    (change_param inc high_nybble to_max st).1.sel_op = st.sel_op ∧
    (change_param inc high_nybble to_max st).1.sel_param = st.sel_param := by
  rw [change_param_store inc high_nybble to_max st hop hp hv]
  have ho := offs_of_lt st.sel_param st.sel_op hp hop
  have hm := max_value_lt st.sel_param
  refine ⟨?_, ?_, by simp [length_wr8, hl], rfl, rfl, rfl, rfl⟩
  · simp only [rd_wr8, hl, ho, true_and, if_true]
    have hs : 0 ≤ step high_nybble ∧ step high_nybble ≤ 16 := by
      unfold step; split_ifs <;> omega
    unfold saturated
    cases inc <;> cases to_max <;> simp [max_def, min_def] <;> (try split_ifs) <;> omega
  · intro j hj
    simp [rd_wr8, hj]

/-- Instance of C4: TL of operator 0 holds 0x7F; a high-nybble increment
saturates at `max_value TL`. -/
theorem change_param_saturating_witness :
    rd sample_edit.instr_params (offs_of TL 0) = 0x7F ∧
    (rd (change_param true true false sample_edit).1.instr_params (offs_of TL 0) : Int)
      = saturated true true false TL 0x7F :=
  ⟨by decide,
   (change_param_saturating true true false sample_edit
      (by decide) (by decide) (by decide) (by decide)).1⟩

/-! ## C5, C6, C7: voice allocator -/

theorem list_three {α : Type} (l : List α) (h : l.length = 3) : ∃ a b c, l = [a, b, c] := by
  match l, h with
  | [a, b, c], _ => exact ⟨a, b, c, rfl⟩

theorem u8_cast (n : Nat) (h : n < 256) : u8 (n : Int) = n := by
  unfold u8; omega

/-- C5: `key_on` binds the key to the lowest-indexed free slot among 0,1,2,
leaving the other slots unchanged, and issues exactly the one chip call
`fm_key_on(oct, note, slot)`; with no free slot it changes nothing and issues
no call. Octave and note range over the 8-bit argument type of the driver. -/
theorem key_on_first_free (key : Int) (oct note : Nat) (st : State)
    (hl : st.pressed_keys.length = 3) (ho : oct < 256) (hn : note < 256) :
    (∀ i, i < 3 → rdk st.pressed_keys i = -1 → (∀ j, j < i → rdk st.pressed_keys j ≠ -1) →
      key_on key oct note st =
        ({ st with pressed_keys := st.pressed_keys.set i key }, [FmCall.key_on oct note i])) ∧
    ((∀ i, i < 3 → rdk st.pressed_keys i ≠ -1) → key_on key oct note st = (st, [])) := by
  obtain ⟨p, pk, oc, so, sp⟩ := st
  obtain ⟨a, b, c, rfl⟩ := list_three pk hl
  constructor
  · intro i hi hfree hlow
    interval_cases i
    · have ha : a = -1 := by simpa [rdk] using hfree
      simp [key_on, key_on_loop, rdk, ha, u8_cast, ho, hn]
    · have ha : a ≠ -1 := by simpa [rdk] using hlow 0 (by decide)
      have hb : b = -1 := by simpa [rdk] using hfree
      simp [key_on, key_on_loop, rdk, ha, hb, u8_cast, ho, hn]
    · have ha : a ≠ -1 := by simpa [rdk] using hlow 0 (by decide)
      have hb : b ≠ -1 := by simpa [rdk] using hlow 1 (by decide)
      have hc : c = -1 := by simpa [rdk] using hfree
      simp [key_on, key_on_loop, rdk, ha, hb, hc, u8_cast, ho, hn]
  · intro hnone
    have ha : a ≠ -1 := by simpa [rdk] using hnone 0 (by decide)
    have hb : b ≠ -1 := by simpa [rdk] using hnone 1 (by decide)
    have hc : c ≠ -1 := by simpa [rdk] using hnone 2 (by decide)
    simp [key_on, key_on_loop, rdk, ha, hb, hc]

/-- Instance of C5: slot 0 is held, so key 120 goes to slot 1. -/
theorem key_on_first_free_witness :
    key_on 120 (3 : Nat) (2 : Nat) sample_one_held =
      ({ sample_one_held with pressed_keys := [122, 120, -1] }, [FmCall.key_on 3 2 1]) :=
  (key_on_first_free 120 3 2 sample_one_held (by decide) (by decide) (by decide)).1
    1 (by decide) (by decide) (by decide)

/-- C6: if some slot is bound to the key, `key_off` frees the lowest-indexed
such slot, leaves the others unchanged and issues exactly the one chip call
`fm_key_off(slot)`; if no slot is bound to the key it changes nothing and
issues no call. -/
theorem key_off_first_bound (key : Int) (st : State) (hl : st.pressed_keys.length = 3) :
    (∀ i, i < 3 → rdk st.pressed_keys i = key → (∀ j, j < i → rdk st.pressed_keys j ≠ key) →
      key_off key st =
        ({ st with pressed_keys := st.pressed_keys.set i (-1) }, [FmCall.key_off i])) ∧
    ((∀ i, i < 3 → rdk st.pressed_keys i ≠ key) → key_off key st = (st, [])) := by
  obtain ⟨p, pk, oc, so, sp⟩ := st
  obtain ⟨a, b, c, rfl⟩ := list_three pk hl
  constructor
  · intro i hi hbound hlow
    interval_cases i
    · have ha : a = key := by simpa [rdk] using hbound
      simp [key_off, key_off_loop, rdk, ha]
    · have ha : a ≠ key := by simpa [rdk] using hlow 0 (by decide)
      have hb : b = key := by simpa [rdk] using hbound
      simp [key_off, key_off_loop, rdk, ha, hb]
    · have ha : a ≠ key := by simpa [rdk] using hlow 0 (by decide)
      have hb : b ≠ key := by simpa [rdk] using hlow 1 (by decide)
      have hc : c = key := by simpa [rdk] using hbound
      simp [key_off, key_off_loop, rdk, ha, hb, hc]
  · intro hnone
    have ha : a ≠ key := by simpa [rdk] using hnone 0 (by decide)
    have hb : b ≠ key := by simpa [rdk] using hnone 1 (by decide)
    have hc : c ≠ key := by simpa [rdk] using hnone 2 (by decide)
    simp [key_off, key_off_loop, rdk, ha, hb, hc]

/-- Instance of C6: key 110 was never bound (all slots held by other keys),
so its release is a no-op. -/
theorem key_off_first_bound_witness :
    key_off 110 sample_all_held = (sample_all_held, []) :=
  (key_off_first_bound 110 sample_all_held (by decide)).2 (by decide)

/-- C7: from the all-free allocator, three `key_on` calls with pairwise
distinct keys (none equal to the free marker -1) occupy slots 0, 1, 2; a
fourth `key_on` then issues no chip call and changes no slot; and after
`key_off` of the key in slot 0, 1 or 2 the next `key_on` is bound to, and
issues `fm_key_on` on, exactly that slot. -/
theorem voice_capacity (k1 k2 k3 k4 o1 n1 o2 n2 o3 n3 o4 n4 : Int) (st : State)
    (hfree : st.pressed_keys = [-1, -1, -1])
    (h1 : k1 ≠ -1) (h2 : k2 ≠ -1) (h3 : k3 ≠ -1)
    (h12 : k1 ≠ k2) (h13 : k1 ≠ k3) (h23 : k2 ≠ k3) :
    (key_on k3 o3 n3 (key_on k2 o2 n2 (key_on k1 o1 n1 st).1).1).1
      = { st with pressed_keys := [k1, k2, k3] } ∧
    key_on k4 o4 n4 { st with pressed_keys := [k1, k2, k3] }
      = ({ st with pressed_keys := [k1, k2, k3] }, []) ∧
    (key_off k1 { st with pressed_keys := [k1, k2, k3] }
        = ({ st with pressed_keys := [-1, k2, k3] }, [FmCall.key_off 0]) ∧
      key_on k4 o4 n4 { st with pressed_keys := [-1, k2, k3] }
        = ({ st with pressed_keys := [k4, k2, k3] }, [FmCall.key_on (u8 o4) (u8 n4) 0])) ∧
    (key_off k2 { st with pressed_keys := [k1, k2, k3] }
        = ({ st with pressed_keys := [k1, -1, k3] }, [FmCall.key_off 1]) ∧
      key_on k4 o4 n4 { st with pressed_keys := [k1, -1, k3] }
        = ({ st with pressed_keys := [k1, k4, k3] }, [FmCall.key_on (u8 o4) (u8 n4) 1])) ∧
    (key_off k3 { st with pressed_keys := [k1, k2, k3] }
        = ({ st with pressed_keys := [k1, k2, -1] }, [FmCall.key_off 2]) ∧
      key_on k4 o4 n4 { st with pressed_keys := [k1, k2, -1] }
        = ({ st with pressed_keys := [k1, k2, k4] }, [FmCall.key_on (u8 o4) (u8 n4) 2])) := by
  obtain ⟨p, pk, oc, so, sp⟩ := st
  simp only at hfree
  subst hfree
  have h21 : k2 ≠ k1 := fun e => h12 e.symm
  have h31 : k3 ≠ k1 := fun e => h13 e.symm
  have h32 : k3 ≠ k2 := fun e => h23 e.symm
  refine ⟨?_, ?_, ⟨?_, ?_⟩, ⟨?_, ?_⟩, ⟨?_, ?_⟩⟩ <;>
    simp [key_on, key_on_loop, key_off, key_off_loop, rdk, h1, h2, h3, h12, h13, h23,
      h21, h31, h32]

/-- Instance of C7 with keys 122, 120, 99 held and key 118 arriving fourth. -/
theorem voice_capacity_witness :
    key_on 118 3 5 { sample_state with pressed_keys := [122, 120, 99] }
      = ({ sample_state with pressed_keys := [122, 120, 99] }, []) ∧
    key_on 118 3 5 { sample_state with pressed_keys := [122, -1, 99] }
      = ({ sample_state with pressed_keys := [122, 118, 99] },
         [FmCall.key_on (u8 3) (u8 5) 1]) :=
  have h := voice_capacity 122 120 99 118 3 0 3 2 3 4 3 5 sample_state rfl
    (by decide) (by decide) (by decide) (by decide) (by decide) (by decide)
  ⟨h.2.1, h.2.2.2.1.2⟩

/-! ## C8, C9: register writes of a parameter edit -/

set_option maxHeartbeats 2000000 in
theorem change_param_calls (inc hn tm : Bool) (st : State)
    (hop : st.sel_op < 4) (hp : st.sel_param ≤ 10) (hr : InRange st.instr_params) :
    (st.sel_param < FB →
      (change_param inc hn tm st).2 =
        [FmCall.write_reg (reg_base st.sel_param + 4 * perm st.sel_op + 0)
           (reg_value (change_param inc hn tm st).1.instr_params st.sel_param st.sel_op) 0,
         FmCall.write_reg (reg_base st.sel_param + 4 * perm st.sel_op + 1)
           (reg_value (change_param inc hn tm st).1.instr_params st.sel_param st.sel_op) 0,
         FmCall.write_reg (reg_base st.sel_param + 4 * perm st.sel_op + 2)
           (reg_value (change_param inc hn tm st).1.instr_params st.sel_param st.sel_op) 0]) ∧
    (st.sel_param = FB ∨ st.sel_param = ALG →
      (change_param inc hn tm st).2 =
        [FmCall.write_reg 0xB0
           (rd (change_param inc hn tm st).1.instr_params ALG_OFFS |||
             (rd (change_param inc hn tm st).1.instr_params FB_OFFS <<< 3)) 0,
         FmCall.write_reg 0xB1
           (rd (change_param inc hn tm st).1.instr_params ALG_OFFS |||
             (rd (change_param inc hn tm st).1.instr_params FB_OFFS <<< 3)) 0,
         FmCall.write_reg 0xB2
           (rd (change_param inc hn tm st).1.instr_params ALG_OFFS |||
             (rd (change_param inc hn tm st).1.instr_params FB_OFFS <<< 3)) 0]) := by
  have hr2 := change_param_inRange inc hn tm st hop hp hr
  obtain ⟨p, pk, oc, so, sp⟩ := st
  simp only at hop hp hr
  revert hr2
  simp only [change_param]
  generalize wr8 _ _ _ = q
  intro hr2
  obtain ⟨bTL, bSL, bAR, bDR, bSR, bRR, bMUL, bDT, bRS⟩ := hr2.bounds so hop
  obtain ⟨bFB, bALG⟩ := hr2.globals
  interval_cases sp <;> interval_cases so <;>
    simp [reg_base, reg_value, perm, TL, SL, AR, DR, SR, RR, MUL, DT, RS, FB, ALG,
      FB_OFFS, ALG_OFFS] at * <;>
    apply u8_cast <;>
    first
    | omega
    | exact (pack_nyb _ _ (by omega) (by omega)).2.2.2
    | exact (pack_ar _ _ (by omega) (by omega)).2.2.2
    | exact (pack_fb _ _ (by omega) (by omega)).2.2.2

/-- C8: under a valid selection, `change_param` issues exactly three register
writes with bank 0: for a per-operator kind to `reg_base kind + 4 * perm k + c`
for `c = 0, 1, 2` in that order, with the value recombined from the updated
store for operator `k`; for FB and ALG to 0xB0, 0xB1, 0xB2 with the value
ALG | FB<<3. The store is in range, as it is in every reachable state. -/
theorem change_param_register_writes (inc high_nybble to_max : Bool) (st : State)
    (hop : st.sel_op < 4) (hp : st.sel_param ≤ 10) (hr : InRange st.instr_params) :
    (st.sel_param < FB →
      (change_param inc high_nybble to_max st).2 =
        [FmCall.write_reg (reg_base st.sel_param + 4 * perm st.sel_op + 0)
           (reg_value (change_param inc high_nybble to_max st).1.instr_params
             st.sel_param st.sel_op) 0,
         FmCall.write_reg (reg_base st.sel_param + 4 * perm st.sel_op + 1)
           (reg_value (change_param inc high_nybble to_max st).1.instr_params
             st.sel_param st.sel_op) 0,
         FmCall.write_reg (reg_base st.sel_param + 4 * perm st.sel_op + 2)
           (reg_value (change_param inc high_nybble to_max st).1.instr_params
             st.sel_param st.sel_op) 0]) ∧
    (st.sel_param = FB ∨ st.sel_param = ALG →
      (change_param inc high_nybble to_max st).2 =
        [FmCall.write_reg 0xB0
           (rd (change_param inc high_nybble to_max st).1.instr_params ALG_OFFS |||
             (rd (change_param inc high_nybble to_max st).1.instr_params FB_OFFS <<< 3)) 0,
         FmCall.write_reg 0xB1
           (rd (change_param inc high_nybble to_max st).1.instr_params ALG_OFFS |||
             (rd (change_param inc high_nybble to_max st).1.instr_params FB_OFFS <<< 3)) 0,
         FmCall.write_reg 0xB2
           (rd (change_param inc high_nybble to_max st).1.instr_params ALG_OFFS |||
             (rd (change_param inc high_nybble to_max st).1.instr_params FB_OFFS <<< 3)) 0]) :=
  change_param_calls inc high_nybble to_max st hop hp hr

/-- Instance of C8: incrementing MUL of operator 1 (stored 2, DT 6) writes
3 | 6<<4 to 0x38, 0x39, 0x3A. -/
theorem change_param_register_writes_witness :
    InRange sample_mul.instr_params ∧
    (change_param true false false sample_mul).2 =
      [FmCall.write_reg (reg_base MUL + 4 * perm 1 + 0)
         (reg_value (change_param true false false sample_mul).1.instr_params MUL 1) 0,
       FmCall.write_reg (reg_base MUL + 4 * perm 1 + 1)
         (reg_value (change_param true false false sample_mul).1.instr_params MUL 1) 0,
       FmCall.write_reg (reg_base MUL + 4 * perm 1 + 2)
         (reg_value (change_param true false false sample_mul).1.instr_params MUL 1) 0] :=
  ⟨by decide,
   (change_param_register_writes true false false sample_mul
      (by decide) (by decide) (by decide)).1 (by decide)⟩

/-- C9: when the selected kind is FB or ALG, for every store, every flag
combination and any two selected operator indices, `change_param` yields the
same store and the same sequence of register writes. -/
theorem global_param_operator_independence (inc high_nybble to_max : Bool) (st : State)
    (o1 o2 : Nat) (hk : st.sel_param = FB ∨ st.sel_param = ALG) :
    (change_param inc high_nybble to_max { st with sel_op := o1 }).1.instr_params
      = (change_param inc high_nybble to_max { st with sel_op := o2 }).1.instr_params ∧
    (change_param inc high_nybble to_max { st with sel_op := o1 }).2
      = (change_param inc high_nybble to_max { st with sel_op := o2 }).2 := by
  obtain ⟨p, pk, oc, so, sp⟩ := st
  simp only at hk
  rcases hk with rfl | rfl <;> simp [change_param]

/-- Instance of C9: editing FB with operator 0 or operator 3 selected. -/
theorem global_param_operator_independence_witness :
    (change_param true false false { sample_fb with sel_op := 0 }).1.instr_params
      = (change_param true false false { sample_fb with sel_op := 3 }).1.instr_params ∧
    (change_param true false false { sample_fb with sel_op := 0 }).2
      = (change_param true false false { sample_fb with sel_op := 3 }).2 :=
  global_param_operator_independence true false false sample_fb 0 3 (Or.inl rfl)

/-! ## C10: register dump issued by `load_eif` -/

set_option maxRecDepth 100000 in
theorem norm_bytes (x : Nat) (hx : x < 256) :
    (x &&& 7) ||| (((x >>> 3) &&& 7) <<< 3) = x &&& 0x3F ∧
    (x &&& 15) ||| (((x >>> 4) &&& 7) <<< 4) = x &&& 0x7F ∧
    (x &&& 31) ||| (((x >>> 6) &&& 3) <<< 6) = x &&& 0xDF ∧
    (x &&& 15) ||| (((x >>> 4) &&& 15) <<< 4) = x &&& 0xFF := by
  have h : ∀ x, x < 256 →
      (x &&& 7) ||| (((x >>> 3) &&& 7) <<< 3) = x &&& 0x3F ∧
      (x &&& 15) ||| (((x >>> 4) &&& 7) <<< 4) = x &&& 0x7F ∧
      (x &&& 31) ||| (((x >>> 6) &&& 3) <<< 6) = x &&& 0xDF ∧
      (x &&& 15) ||| (((x >>> 4) &&& 15) <<< 4) = x &&& 0xFF := by decide
  exact h x hx

theorem save_load_slot (b : List Nat) (st : State) (dest : List Nat)
    (hl : st.instr_params.length = 38) (hd : dest.length = 29)
    (hb : ∀ i, i < 25 → rd b i < 256) (p : Nat) (hp : p < 4) :
    rd (save_eif (load_eif b st).1 dest) (1 + p) = rd b (1 + p) &&& 0x7F ∧
    rd (save_eif (load_eif b st).1 dest) (5 + p) = rd b (5 + p) &&& 0x7F ∧
    rd (save_eif (load_eif b st).1 dest) (9 + p) = rd b (9 + p) &&& 0xDF ∧
    rd (save_eif (load_eif b st).1 dest) (13 + p) = rd b (13 + p) &&& 0x1F ∧
    rd (save_eif (load_eif b st).1 dest) (17 + p) = rd b (17 + p) &&& 0x1F ∧
    rd (save_eif (load_eif b st).1 dest) (21 + p) = rd b (21 + p) &&& 0xFF := by
  have hs := save_eif_inrange (load_eif b st).1 dest (load_eif_inRange b st hl) hd
    (perm p) (perm_lt p hp)
  have hload := load_eif_params b st hl (perm p) (perm_lt p hp)
  rw [perm_perm] at hs hload
  obtain ⟨s1, s5, s9, s13, s17, s21, -⟩ := hs
  obtain ⟨l1, l2, l3, l4, l5, l6, l7, l8, l9⟩ := hload
  refine ⟨?_, ?_, ?_, ?_, ?_, ?_⟩
  · rw [s1, l1, l2]; exact (norm_bytes _ (hb _ (by omega))).2.1
  · rw [s5, l3]
  · rw [s9, l4, l5]; exact (norm_bytes _ (hb _ (by omega))).2.2.1
  · rw [s13, l6]
  · rw [s17, l7]
  · rw [s21, l9, l8]; exact (norm_bytes _ (hb _ (by omega))).2.2.2

theorem save_load_byte (b : List Nat) (st : State) (dest : List Nat)
    (hl : st.instr_params.length = 38) (hd : dest.length = 29)
    (hb : ∀ i, i < 25 → rd b i < 256) (i : Nat) (hi : i < 25) :
    rd (save_eif (load_eif b st).1 dest) i = rd b i &&& eif_mask i := by
  by_cases h0 : i = 0
  · subst h0
    rw [save_eif_inrange_zero _ dest (load_eif_inRange b st hl) hd,
      (load_eif_globals b st hl).1, (load_eif_globals b st hl).2]
    exact (norm_bytes _ (hb 0 (by omega))).1
  · obtain ⟨k1, k5, k9, k13, k17, k21⟩ := save_load_slot b st dest hl hd hb ((i - 1) % 4)
      (Nat.mod_lt _ (by decide))
    have hg : (i - 1) / 4 < 6 := by omega
    have hp : (i - 1) % 4 < 4 := Nat.mod_lt _ (by decide)
    have hi2 : i = 1 + 4 * ((i - 1) / 4) + (i - 1) % 4 := by omega
    generalize (i - 1) / 4 = g at hg hi2
    generalize (i - 1) % 4 = p at k1 k5 k9 k13 k17 k21 hi2 hp
    subst hi2
    interval_cases g
    · have e : eif_mask (1 + 4 * 0 + p) = 0x7F := by unfold eif_mask; split_ifs <;> omega
      rw [e]; exact k1
    · have e : eif_mask (1 + 4 * 1 + p) = 0x7F := by unfold eif_mask; split_ifs <;> omega
      rw [e]; exact k5
    · have e : eif_mask (1 + 4 * 2 + p) = 0xDF := by unfold eif_mask; split_ifs <;> omega
      rw [e]; exact k9
    · have e : eif_mask (1 + 4 * 3 + p) = 0x1F := by unfold eif_mask; split_ifs <;> omega
      rw [e]; exact k13
    · have e : eif_mask (1 + 4 * 4 + p) = 0x1F := by unfold eif_mask; split_ifs <;> omega
      rw [e]; exact k17
    · have e : eif_mask (1 + 4 * 5 + p) = 0xFF := by unfold eif_mask; split_ifs <;> omega
      rw [e]; exact k21

theorem write_eif_regs_congr (d e : List Nat) (chan : Nat)
    (h : ∀ i, i < 25 → rd d i = rd e i) : write_eif_regs d chan = write_eif_regs e chan := by
  simp [write_eif_regs, write_eif_regs_iter, range_six, h]

theorem full_dump_congr (d e : List Nat) (h : ∀ i, i < 25 → rd d i = rd e i) :
    full_dump d = full_dump e := by
  unfold full_dump
  rw [write_eif_regs_congr d e 0 h, write_eif_regs_congr d e 1 h, write_eif_regs_congr d e 2 h]

theorem full_dump_inj (d e : List Nat) (h : full_dump d = full_dump e) :
    ∀ i, i < 25 → rd d i = rd e i := by
  simp [full_dump, write_eif_regs, write_eif_regs_iter, range_six] at h
  intro i hi
  interval_cases i <;> simp [h]

/-- C10 (as amended): for every 29-byte input `b`, `load_eif` issues the full
dump of `b` itself on channels 0, 1, 2; this is the full dump of `save_eif`'s
encoding of the store after the load exactly when no reserved bit is set in
bytes 0..24 of `b`. -/
theorem load_eif_dump (b : List Nat) (st : State) (dest : List Nat)
    (hb : IsBytes b 29) (hl : st.instr_params.length = 38) (hd : dest.length = 29) :
    (load_eif b st).2 = full_dump b ∧
    ((load_eif b st).2 = full_dump (save_eif (load_eif b st).1 dest) ↔ NoReservedBits b) := by
  have hb25 : ∀ i, i < 25 → rd b i < 256 := fun i hi => hb.2 i (by omega)
  have hn := save_load_byte b st dest hl hd hb25
  refine ⟨rfl, ?_⟩
  show full_dump b = full_dump (save_eif (load_eif b st).1 dest) ↔ NoReservedBits b
  constructor
  · intro h i hi
    rw [← hn i hi]
    exact (full_dump_inj _ _ h i hi).symm
  · intro h
    apply full_dump_congr
    intro i hi
    rw [hn i hi]
    exact (h i hi).symm

/-- Instance of C10 (as amended) at the default instrument padded to 29 bytes. -/
theorem load_eif_dump_witness :
    IsBytes sample_clean 29 ∧ NoReservedBits sample_clean ∧
    (load_eif sample_clean state_zero).2
      = full_dump (save_eif (load_eif sample_clean state_zero).1 sample_dest) :=
  ⟨by decide, by decide,
   (load_eif_dump sample_clean state_zero sample_dest (by decide) (by decide) (by decide)).2.2
     (by decide)⟩

/-- C10 fails as stated: for the 29-byte input `sample_reserved` (TL byte of
slot 0 equal to 0x80) `load_eif` stores TL = 0 but writes 0x80 to register
0x40, so its writes differ from the full dump of the re-packed store. -/
theorem load_eif_dump_counterexample :
    IsBytes sample_reserved 29 ∧
    (load_eif sample_reserved state_zero).2
      ≠ full_dump (save_eif (load_eif sample_reserved state_zero).1 sample_dest) := by
  decide

/-! ## C11, C12: the full dump -/

theorem write_eif_regs_eq_layout (b : List Nat) (c : Nat) (hc : c < 3) :
    write_eif_regs b c = dump_layout b c := by
  interval_cases c
  · simp [write_eif_regs, write_eif_regs_iter, dump_layout, range_six, range_four]
  · simp [write_eif_regs, write_eif_regs_iter, dump_layout, range_six, range_four]
  · simp [write_eif_regs, write_eif_regs_iter, dump_layout, range_six, range_four]
    decide

theorem length_dump_layout (b : List Nat) (c : Nat) : (dump_layout b c).length = 26 := by
  simp [dump_layout, range_six, range_four]

/-- C11: for every EIF byte array `b` and channel `c` in {0,1,2},
`write_eif_regs` issues exactly the 26 bank-0 writes of `dump_layout`: byte
`1+4g+p` to register `0x30 + 16g + 4p + c` for each group `g` and slot `p`,
then byte 0 to `0xB0 + c` and 0xC0 to `0xB4 + c`; `load_eif` issues this dump
for channel 0, then 1, then 2, 78 writes in total. -/
theorem write_eif_regs_full_dump (b : List Nat) (st : State) (c : Nat) (hc : c < 3) :
    write_eif_regs b c = dump_layout b c ∧
    (write_eif_regs b c).length = 26 ∧
    (∀ x, x ∈ write_eif_regs b c → ∃ reg val, x = FmCall.write_reg reg val 0) ∧
    (load_eif b st).2 = dump_layout b 0 ++ dump_layout b 1 ++ dump_layout b 2 ∧
    (load_eif b st).2.length = 78 := by
  have h0 := write_eif_regs_eq_layout b 0 (by decide)
  have h1 := write_eif_regs_eq_layout b 1 (by decide)
  have h2 := write_eif_regs_eq_layout b 2 (by decide)
  refine ⟨write_eif_regs_eq_layout b c hc, ?_, ?_, ?_, ?_⟩
  · rw [write_eif_regs_eq_layout b c hc, length_dump_layout]
  · intro x hx
    rw [write_eif_regs_eq_layout b c hc] at hx
    simp only [dump_layout, List.mem_append, List.mem_flatMap, List.mem_map, List.mem_cons,
      List.mem_singleton, List.not_mem_nil, or_false] at hx
    rcases hx with ⟨g, _, p, _, rfl⟩ | rfl | rfl
    · exact ⟨_, _, rfl⟩
    · exact ⟨_, _, rfl⟩
    · exact ⟨_, _, rfl⟩
  · show write_eif_regs b 0 ++ write_eif_regs b 1 ++ write_eif_regs b 2 = _
    rw [h0, h1, h2]
  · show (write_eif_regs b 0 ++ write_eif_regs b 1 ++ write_eif_regs b 2).length = 78
    rw [h0, h1, h2]
    simp [length_dump_layout]

/-- Instance of C11: the dump of the default instrument on channel 2. -/
theorem write_eif_regs_full_dump_witness :
    write_eif_regs instr_default 2 = dump_layout instr_default 2 ∧
    (load_eif instr_default state_zero).2.length = 78 :=
  have h := write_eif_regs_full_dump instr_default state_zero 2 (by decide)
  ⟨h.1, h.2.2.2.2⟩

theorem load_eif_congr (b1 b2 : List Nat) (st : State)
    (h : ∀ i, i < 25 → rd b1 i = rd b2 i) : load_eif b1 st = load_eif b2 st := by
  simp [load_eif, load_eif_iter, range_four, write_eif_regs, write_eif_regs_iter, range_six, h]

/-- C12: two inputs (in particular two 29-byte inputs) that agree on bytes
0..24, and so differ at most in bytes 25..28, give the same stored instrument
and the same sequence of register writes under `load_eif`. -/
theorem load_eif_ignores_reserved (b1 b2 : List Nat) (st : State)
    (h : ∀ i, i < 25 → rd b1 i = rd b2 i) :
    (load_eif b1 st).1 = (load_eif b2 st).1 ∧ (load_eif b1 st).2 = (load_eif b2 st).2 := by
  rw [load_eif_congr b1 b2 st h]
  exact ⟨rfl, rfl⟩

/-- Instance of C12: the padded default instrument with the reserved bytes
zero and with the reserved bytes 1, 2, 3, 4. -/
theorem load_eif_ignores_reserved_witness :
    (load_eif (instr_default ++ [0, 0, 0, 0]) sample_state).1
      = (load_eif (instr_default ++ [1, 2, 3, 4]) sample_state).1 ∧
    (load_eif (instr_default ++ [0, 0, 0, 0]) sample_state).2
      = (load_eif (instr_default ++ [1, 2, 3, 4]) sample_state).2 :=
  load_eif_ignores_reserved _ _ sample_state (by decide)

/-! ## C13, C14: loading from a file -/

theorem load_eif_file_loop_none (data : List Nat) :
    ∀ (n pos : Nat) (bytes : List Nat) (nb : Nat), pos ≤ data.length → data.length < pos + n →
      load_eif_file_loop ⟨data, pos, false⟩ bytes nb n = none := by
  intro n
  induction n with
  | zero => intro pos bytes nb h1 h2; omega
  | succ n ih =>
    intro pos bytes nb h1 h2
    by_cases hp : pos < data.length
    · have hg : data[pos]? = some data[pos] := List.getElem?_eq_getElem hp
      simp only [load_eif_file_loop, fread1, List.get?_eq_getElem?, hg]
      simpa using ih (pos + 1) (wr8 bytes nb data[pos]) (nb + 1) (by omega) (by omega)
    · have hg : data[pos]? = none := List.getElem?_eq_none (by omega)
      simp [load_eif_file_loop, fread1, List.get?_eq_getElem?, hg]

theorem load_eif_file_loop_some (data : List Nat) :
    ∀ (n pos : Nat) (bytes : List Nat) (nb : Nat), pos + n ≤ data.length →
      ∃ r, load_eif_file_loop ⟨data, pos, false⟩ bytes nb n = some r ∧
        r.length = bytes.length ∧
        ∀ i, rd r i =
          if nb ≤ i ∧ i < nb + n ∧ i < bytes.length then rd data (pos + (i - nb)) % 256
          else rd bytes i := by
  intro n
  induction n with
  | zero =>
    intro pos bytes nb _
    refine ⟨bytes, rfl, rfl, ?_⟩
    intro i
    have : ¬ (nb ≤ i ∧ i < nb + 0 ∧ i < bytes.length) := by omega
    rw [if_neg this]
  | succ n ih =>
    intro pos bytes nb h
    have hp : pos < data.length := by omega
    have hg : data[pos]? = some data[pos] := List.getElem?_eq_getElem hp
    obtain ⟨r, hr, hlen, hrd⟩ := ih (pos + 1) (wr8 bytes nb data[pos]) (nb + 1) (by omega)
    refine ⟨r, ?_, by rw [hlen, length_wr8], ?_⟩
    · simp only [load_eif_file_loop, fread1, List.get?_eq_getElem?, hg]
      simpa using hr
    · intro i
      rw [hrd i, rd_wr8, length_wr8]
      have hd : rd data pos = data[pos] := by
        simp [rd, List.getD_eq_getElem?_getD, hg]
      by_cases h1 : nb + 1 ≤ i ∧ i < nb + 1 + n ∧ i < bytes.length
      · have h2 : nb ≤ i ∧ i < nb + (n + 1) ∧ i < bytes.length := by omega
        rw [if_pos h1, if_pos h2]
        congr 2
        omega
      · rw [if_neg h1]
        by_cases h3 : nb < bytes.length ∧ i = nb
        · have h2 : nb ≤ i ∧ i < nb + (n + 1) ∧ i < bytes.length := by omega
          rw [if_pos h3, if_pos h2, ← hd]
          congr 2
          omega
        · have h2 : ¬ (nb ≤ i ∧ i < nb + (n + 1) ∧ i < bytes.length) := by omega
          rw [if_neg h3, if_neg h2]

theorem rd_take (l : List Nat) (n i : Nat) (h : i < n) : rd (l.take n) i = rd l i := by
  simp [rd, List.getD_eq_getElem?_getD, List.getElem?_take, h]

theorem load_eif_file_short (file : Option (List Nat)) (st : State)
    (h : ∀ data, file = some data → data.length < 29) :
    load_eif_file file st = (false, st, []) := by
  cases file with
  | none => rfl
  | some data =>
    have hl := h data rfl
    unfold load_eif_file
    simp only [load_eif_file_loop_none data 29 0 _ 0 (by omega) (by omega)]

theorem load_eif_file_long (data : List Nat) (st : State)
    (hb : ∀ i, i < data.length → rd data i < 256) (hl : 29 ≤ data.length) :
    load_eif_file (some data) st
      = (true, (load_eif (data.take 29) st).1, (load_eif (data.take 29) st).2) := by
  obtain ⟨r, hr, _, hrd⟩ := load_eif_file_loop_some data 29 0 (List.replicate 29 0) 0 (by omega)
  have hc : load_eif r st = load_eif (data.take 29) st := by
    apply load_eif_congr
    intro i hi
    rw [hrd i, rd_take _ _ _ (by omega)]
    have h1 : 0 ≤ i ∧ i < 0 + 29 ∧ i < (List.replicate 29 0).length := by simp; omega
    rw [if_pos h1]
    simpa using Nat.mod_eq_of_lt (hb i (by omega))
  unfold load_eif_file
  simp only [hr, hc]

/-- C13 (as amended): a file that can be opened is loaded if and only if it
holds at least 29 bytes; `load_eif_file` then returns true and decodes its
first 29 bytes with `load_eif`, ignoring the rest; a shorter file, or one
that cannot be opened, fails to load. -/
theorem load_eif_file_accepts (data : List Nat) (st : State)
    (hb : ∀ i, i < data.length → rd data i < 256) :
    ((load_eif_file (some data) st).1 = true ↔ 29 ≤ data.length) ∧
    (29 ≤ data.length →
      load_eif_file (some data) st
        = (true, (load_eif (data.take 29) st).1, (load_eif (data.take 29) st).2)) ∧
    (load_eif_file none st).1 = false := by
  refine ⟨?_, load_eif_file_long data st hb, rfl⟩
  constructor
  · intro h
    by_contra hn
    rw [load_eif_file_short (some data) st
      (fun d hd => by cases hd; omega)] at h
    simp at h
  · intro h
    rw [load_eif_file_long data st hb h]

/-- Instance of C13 (as amended): the 30-byte file is decoded from its first
29 bytes. -/
theorem load_eif_file_accepts_witness :
    load_eif_file (some sample_long_file) state_zero
      = (true, (load_eif (sample_long_file.take 29) state_zero).1,
          (load_eif (sample_long_file.take 29) state_zero).2) :=
  (load_eif_file_accepts sample_long_file state_zero (by decide)).2.1 (by decide)

/-- C13 fails as stated: the file `sample_long_file` is 30 bytes long, not 29,
and `load_eif_file` returns true on it. -/
theorem load_eif_file_accepts_counterexample :
    sample_long_file.length = 30 ∧
    (load_eif_file (some sample_long_file) state_zero).1 = true := by
  decide

/-- C14: for a file that cannot be opened, or that holds fewer than 29 bytes,
`load_eif_file` returns false, leaves the state (the 38-value store included)
as it was and issues no chip call. -/
theorem load_eif_file_failure_atomic (file : Option (List Nat)) (st : State)
    (h : ∀ data, file = some data → data.length < 29) :
    load_eif_file file st = (false, st, []) :=
  load_eif_file_short file st h

/-- Instance of C14: a 28-byte file. -/
theorem load_eif_file_failure_atomic_witness :
    sample_short_file.length = 28 ∧
    load_eif_file (some sample_short_file) sample_state = (false, sample_state, []) :=
  ⟨by decide,
   load_eif_file_failure_atomic (some sample_short_file) sample_state
     (fun d hd => by cases hd; decide)⟩

/-! ## C15: selection state -/

theorem change_param_frame (inc hn tm : Bool) (st : State) :
    (change_param inc hn tm st).1.sel_op = st.sel_op ∧
    (change_param inc hn tm st).1.sel_param = st.sel_param ∧
    (change_param inc hn tm st).1.octave = st.octave ∧
    (change_param inc hn tm st).1.pressed_keys = st.pressed_keys :=
  ⟨rfl, rfl, rfl, rfl⟩

theorem key_on_frame (key oct note : Int) (st : State) :
    (key_on key oct note st).1.sel_op = st.sel_op ∧
    (key_on key oct note st).1.sel_param = st.sel_param ∧
    (key_on key oct note st).1.octave = st.octave ∧
    (key_on key oct note st).1.instr_params = st.instr_params := by
  simp only [key_on, key_on_loop]
  split_ifs <;> exact ⟨rfl, rfl, rfl, rfl⟩

theorem key_off_frame (key : Int) (st : State) :
    (key_off key st).1.sel_op = st.sel_op ∧
    (key_off key st).1.sel_param = st.sel_param ∧
    (key_off key st).1.octave = st.octave ∧
    (key_off key st).1.instr_params = st.instr_params := by
  simp only [key_off, key_off_loop]
  split_ifs <;> exact ⟨rfl, rfl, rfl, rfl⟩

theorem load_eif_frame (instr : List Nat) (st : State) :
    (load_eif instr st).1.sel_op = st.sel_op ∧
    (load_eif instr st).1.sel_param = st.sel_param ∧
    (load_eif instr st).1.octave = st.octave ∧
    (load_eif instr st).1.pressed_keys = st.pressed_keys := by
  simp only [load_eif, and_self]

theorem load_eif_file_frame (file : Option (List Nat)) (st : State) :
    (load_eif_file file st).2.1.sel_op = st.sel_op ∧
    (load_eif_file file st).2.1.sel_param = st.sel_param ∧
    (load_eif_file file st).2.1.octave = st.octave ∧
    (load_eif_file file st).2.1.pressed_keys = st.pressed_keys := by
  unfold load_eif_file
  cases file with
  | none => exact ⟨rfl, rfl, rfl, rfl⟩
  | some data =>
    simp only
    cases load_eif_file_loop ⟨data, 0, false⟩ (List.replicate 29 0) 0 29 with
    | none => exact ⟨rfl, rfl, rfl, rfl⟩
    | some bytes =>
      simp only
      exact load_eif_frame bytes st

theorem ui_init_frame (file : Option (List Nat)) :
    (ui_init file state_zero).1.sel_op = 0 ∧
    (ui_init file state_zero).1.sel_param = 0 ∧
    (ui_init file state_zero).1.octave = 3 ∧
    (ui_init file state_zero).1.pressed_keys = [-1, -1, -1] := by
  simp only [ui_init]
  generalize hst : (load_eif instr_default _).1 = s1
  have e1 : s1.sel_op = 0 := by rw [← hst]; rfl
  have e2 : s1.sel_param = 0 := by rw [← hst]; rfl
  have e3 : s1.octave = 3 := by rw [← hst]; rfl
  have e4 : s1.pressed_keys = [-1, -1, -1] := by rw [← hst]; rfl
  obtain ⟨h1, h2, h3, h4⟩ := load_eif_file_frame file s1
  rw [h1, h2, h3, h4]
  exact ⟨e1, e2, e3, e4⟩

theorem key_press_frame (sym : Int) (shift ctrl is_repeat : Bool) (st : State) :
    (key_press sym shift ctrl is_repeat st).1.sel_op
      = (key_press_switch sym shift ctrl st).1.sel_op ∧
    (key_press sym shift ctrl is_repeat st).1.sel_param
      = (key_press_switch sym shift ctrl st).1.sel_param ∧
    (key_press sym shift ctrl is_repeat st).1.octave
      = (key_press_switch sym shift ctrl st).1.octave := by
  unfold key_press
  simp only
  split_ifs
  · obtain ⟨h1, h2, h3, -⟩ := key_on_frame sym
      (((key_press_switch sym shift ctrl st).1.octave : Nat) + ((key_note sym).2 : Nat))
      (key_note sym).1 (key_press_switch sym shift ctrl st).1
    exact ⟨h1, h2, h3⟩
  · exact ⟨rfl, rfl, rfl⟩
  · exact ⟨rfl, rfl, rfl⟩

theorem key_press_switch_inv (sym : Int) (shift ctrl : Bool) (st : State)
    (h : SelectionOk st ∧ st.octave ≤ 7) :
    SelectionOk (key_press_switch sym shift ctrl st).1 ∧
    (key_press_switch sym shift ctrl st).1.octave ≤ 7 := by
  unfold SelectionOk at h ⊢
  unfold key_press_switch
  obtain ⟨u1, u2, u3, -⟩ := change_param_frame true shift ctrl st
  obtain ⟨d1, d2, d3, -⟩ := change_param_frame false shift ctrl st
  generalize change_param true shift ctrl st = cu at u1 u2 u3 ⊢
  generalize change_param false shift ctrl st = cd at d1 d2 d3 ⊢
  simp only [FB, ALG, RS] at h ⊢
  by_cases h0 : sym = SDLK_UP
  · rw [if_pos h0]
    clear h0
    split_ifs <;> dsimp only <;> omega
  rw [if_neg h0]
  clear h0
  by_cases h1 : sym = SDLK_DOWN
  · rw [if_pos h1]
    clear h1
    split_ifs <;> dsimp only <;> omega
  rw [if_neg h1]
  clear h1
  by_cases h2 : sym = SDLK_LEFT
  · rw [if_pos h2]
    clear h2
    split_ifs <;> dsimp only <;> omega
  rw [if_neg h2]
  clear h2
  by_cases h3 : sym = SDLK_RIGHT
  · rw [if_pos h3]
    clear h3
    split_ifs <;> dsimp only <;> omega
  rw [if_neg h3]
  clear h3
  by_cases h4 : sym = SDLK_HOME
  · rw [if_pos h4]
    clear h4
    split_ifs <;> simp <;> omega
  rw [if_neg h4]
  clear h4
  by_cases h5 : sym = SDLK_END
  · rw [if_pos h5]
    clear h5
    split_ifs <;> dsimp only <;> omega
  rw [if_neg h5]
  clear h5
  by_cases h6 : sym = SDLK_PAGEUP
  · rw [if_pos h6]
    clear h6
    dsimp only
    omega
  rw [if_neg h6]
  clear h6
  by_cases h7 : sym = SDLK_PAGEDOWN
  · rw [if_pos h7]
    clear h7
    dsimp only
    omega
  rw [if_neg h7]
  clear h7
  by_cases h8 : sym = SDLK_EQUALS
  · rw [if_pos h8]
    clear h8
    split_ifs <;> dsimp only <;> omega
  rw [if_neg h8]
  clear h8
  by_cases h9 : sym = SDLK_MINUS
  · rw [if_pos h9]
    clear h9
    split_ifs <;> dsimp only <;> omega
  rw [if_neg h9]
  clear h9
  by_cases h10 : sym = SDLK_F5
  · rw [if_pos h10]
    clear h10
    dsimp only
    omega
  rw [if_neg h10]
  clear h10
  dsimp only
  omega

theorem uiReachable_inv (st : State) (h : UiReachable st) :
    SelectionOk st ∧ st.octave ≤ 7 := by
  induction h with
  | init file =>
    obtain ⟨h1, h2, h3, -⟩ := ui_init_frame file
    unfold SelectionOk
    rw [h1, h2, h3]
    decide
  | key_down sym shift ctrl is_repeat st _ ih =>
    obtain ⟨h1, h2, h3⟩ := key_press_frame sym shift ctrl is_repeat st
    obtain ⟨hs, ho⟩ := key_press_switch_inv sym shift ctrl st ih
    unfold SelectionOk at hs ⊢
    rw [h1, h2, h3]
    exact ⟨hs, ho⟩
  | key_up sym st _ ih =>
    obtain ⟨h1, h2, h3, -⟩ := key_off_frame sym st
    unfold SelectionOk at ih ⊢
    rw [h1, h2, h3]
    exact ih

/-- C15: in every state reachable from the state left by `ui_init` (selection
operator 0, kind TL) by key-down events handled by `key_press` (any key, any
shift/ctrl/repeat flags) and key-up events, `sel_op` is in 0..3, `sel_param`
is one of the 11 kinds, and `sel_param` is FB or ALG only with `sel_op = 0`. -/
theorem selection_invariant (st : State) (h : UiReachable st) :
    st.sel_op < 4 ∧ st.sel_param ≤ 10 ∧
    ((st.sel_param = FB ∨ st.sel_param = ALG) → st.sel_op = 0) :=
  (uiReachable_inv st h).1

/-- Instance of C15: after End the selection is ALG, and Right leaves the
operator at 0. -/
theorem selection_invariant_witness :
    UiReachable sample_after_keys ∧
    sample_after_keys.sel_op < 4 ∧ sample_after_keys.sel_param ≤ 10 ∧
    ((sample_after_keys.sel_param = FB ∨ sample_after_keys.sel_param = ALG) →
      sample_after_keys.sel_op = 0) :=
  have hs : UiReachable sample_after_keys :=
    UiReachable.key_down SDLK_RIGHT false false false _
      (UiReachable.key_down SDLK_END false false false _ (UiReachable.init none))
  ⟨hs, selection_invariant sample_after_keys hs⟩

/-! ## C16, C17, C18: the default instrument -/

theorem load_default_values (st : State) (h : st.instr_params.length = 38) :
    (load_eif instr_default st).1.instr_params =
      [0x7F, 0x7F, 0x7F, 0x00,
       0x0F, 0x0F, 0x0F, 0x0F,
       0x1F, 0x1F, 0x1F, 0x1F,
       0x00, 0x00, 0x00, 0x00,
       0x00, 0x00, 0x00, 0x00,
       0x0F, 0x0F, 0x0F, 0x0F,
       0x01, 0x01, 0x01, 0x01,
       0x00, 0x00, 0x00, 0x00,
       0x00, 0x00, 0x00, 0x00,
       0x00, 0x00] := by
  apply ext_rd (by rw [length_load_eif, h]; rfl)
  intro i hi
  rw [length_load_eif, h] at hi
  interval_cases i <;>
    simp [load_eif, load_eif_iter, range_four, rd_wr8, length_wr8, h, instr_default,
      TL, SL, AR, DR, SR, RR, MUL, DT, RS, FB_OFFS, ALG_OFFS] <;>
    simp [rd] <;>
    decide

/-- C16 (as amended): after `load_eif` on `instr_default`, every one of the 4
operators has MUL = 1 and DT = 0, the globals are FB = 0 and ALG = 0, and TL
is 0x7F for operators 0, 1, 2 and 0 for operator 3 only. -/
theorem default_instrument_description (st : State) (h : st.instr_params.length = 38) :
    (∀ k, k < 4 →
      rd (load_eif instr_default st).1.instr_params (MUL * 4 + k) = 1 ∧
      rd (load_eif instr_default st).1.instr_params (DT * 4 + k) = 0) ∧
    rd (load_eif instr_default st).1.instr_params FB_OFFS = 0 ∧
    rd (load_eif instr_default st).1.instr_params ALG_OFFS = 0 ∧
    rd (load_eif instr_default st).1.instr_params (TL * 4 + 0) = 0x7F ∧
    rd (load_eif instr_default st).1.instr_params (TL * 4 + 1) = 0x7F ∧
    rd (load_eif instr_default st).1.instr_params (TL * 4 + 2) = 0x7F ∧
    rd (load_eif instr_default st).1.instr_params (TL * 4 + 3) = 0 := by
  rw [load_default_values st h]
  decide

/-- Instance of C16 (as amended), loading over the zeroed store. -/
theorem default_instrument_description_witness :
    rd (load_eif instr_default state_zero).1.instr_params (MUL * 4 + 3) = 1 ∧
    rd (load_eif instr_default state_zero).1.instr_params (TL * 4 + 3) = 0 :=
  have h := default_instrument_description state_zero (by decide)
  ⟨(h.1 3 (by decide)).1, h.2.2.2.2.2.2⟩

/-- C16 fails as stated: after `load_eif` on `instr_default` the stored TL of
operator 0 is 0x7F, not 0. -/
theorem default_instrument_description_counterexample :
    rd (load_eif instr_default state_zero).1.instr_params (TL * 4 + 0) = 0x7F ∧
    rd (load_eif instr_default state_zero).1.instr_params (TL * 4 + 0) ≠ 0 := by
  decide

/-- C17: after `load_eif` on `instr_default` the stored ALG is 0, the stored
FB is 0 and the stored AR of internal operator 0 is 0x1F. -/
theorem default_instrument_scenario (st : State) (h : st.instr_params.length = 38) :
    rd (load_eif instr_default st).1.instr_params ALG_OFFS = 0 ∧
    rd (load_eif instr_default st).1.instr_params FB_OFFS = 0 ∧
    rd (load_eif instr_default st).1.instr_params (AR * 4 + 0) = 0x1F := by
  rw [load_default_values st h]
  decide

/-- Instance of C17 on the path of `ui_init`: loading over the zeroed store. -/
theorem default_instrument_scenario_witness :
    rd (load_eif instr_default state_zero).1.instr_params ALG_OFFS = 0 ∧
    rd (load_eif instr_default state_zero).1.instr_params FB_OFFS = 0 ∧
    rd (load_eif instr_default state_zero).1.instr_params (AR * 4 + 0) = 0x1F :=
  default_instrument_scenario state_zero (by decide)

/-- C18 (as amended): `instr_default` is exactly 25 bytes long, the 25 bytes
00 01 01 01 01 7F 7F 7F 00 1F 1F 1F 1F 00 00 00 00 00 00 00 00 FF FF FF FF
with no reserved bytes after them; `load_eif` reads none of the indices
25..28, since whatever follows the 25 bytes leaves its result unchanged. -/
theorem default_constant_size :
    instr_default.length = 25 ∧
    instr_default =
      [0x00, 0x01, 0x01, 0x01, 0x01, 0x7F, 0x7F, 0x7F, 0x00, 0x1F, 0x1F, 0x1F, 0x1F,
       0x00, 0x00, 0x00, 0x00, 0x00, 0x00, 0x00, 0x00, 0xFF, 0xFF, 0xFF, 0xFF] ∧
    ∀ (rest : List Nat) (st : State),
      load_eif (instr_default ++ rest) st = load_eif instr_default st := by
  refine ⟨rfl, rfl, ?_⟩
  intro rest st
  apply load_eif_congr
  intro i hi
  have hl : i < instr_default.length := by
    have : instr_default.length = 25 := rfl
    omega
  simp [rd, List.getD_eq_getElem?_getD, List.getElem?_append_left hl]

/-- C18 fails as stated: `instr_default` has 25 entries, so it is not the
29-byte sequence of the specification and index 25 is not defined for it. -/
theorem default_constant_size_counterexample :
    instr_default.length ≠ 29 ∧ instr_default ≠ default_bytes_spec ∧
    instr_default.get? 25 = none := by
  decide

/-! ## C19: arguments of the chip-driver calls -/

theorem if_elim {α : Type} {P : α → Prop} {c : Prop} [Decidable c] {a b : α}
    (ha : P a) (hb : P b) : P (if c then a else b) := by
  by_cases h : c
  · rw [if_pos h]; exact ha
  · rw [if_neg h]; exact hb

theorem key_note_range (sym : Int) :
    ((key_note sym).1 = -1 ∨ (0 ≤ (key_note sym).1 ∧ (key_note sym).1 ≤ 11)) ∧
    (key_note sym).2 ≤ 2 := by
  unfold key_note
  iterate 32
    refine if_elim (P := fun r : Int × Nat =>
      (r.1 = -1 ∨ (0 ≤ r.1 ∧ r.1 ≤ 11)) ∧ r.2 ≤ 2) (by decide) ?_
  decide

theorem key_on_calls (key oct note : Int) (st : State) (x : FmCall)
    (hx : x ∈ (key_on key oct note st).2) :
    ∃ i, i < 3 ∧ x = FmCall.key_on (u8 oct) (u8 note) i := by
  simp only [key_on, key_on_loop] at hx
  split_ifs at hx <;> simp at hx
  · exact ⟨0, by decide, hx⟩
  · exact ⟨1, by decide, hx⟩
  · exact ⟨2, by decide, hx⟩

theorem key_off_calls (key : Int) (st : State) (x : FmCall)
    (hx : x ∈ (key_off key st).2) : ∃ i, i < 3 ∧ x = FmCall.key_off i := by
  simp only [key_off, key_off_loop] at hx
  split_ifs at hx <;> simp at hx
  · exact ⟨0, by decide, hx⟩
  · exact ⟨1, by decide, hx⟩
  · exact ⟨2, by decide, hx⟩

theorem change_param_calls_write (inc hn tm : Bool) (st : State) (x : FmCall)
    (hx : x ∈ (change_param inc hn tm st).2) : ∃ reg val, x = FmCall.write_reg reg val 0 := by
  simp only [change_param, List.mem_cons, List.mem_singleton, List.not_mem_nil, or_false] at hx
  rcases hx with rfl | rfl | rfl <;> exact ⟨_, _, rfl⟩

theorem key_press_switch_calls (sym : Int) (shift ctrl : Bool) (st : State) (x : FmCall)
    (hx : x ∈ (key_press_switch sym shift ctrl st).2.1) :
    ∃ reg val, x = FmCall.write_reg reg val 0 := by
  have hu := change_param_calls_write true shift ctrl st x
  have hd := change_param_calls_write false shift ctrl st x
  revert hx
  unfold key_press_switch
  generalize change_param true shift ctrl st = cu at hu ⊢
  generalize change_param false shift ctrl st = cd at hd ⊢
  iterate 11
    refine if_elim (P := fun r : State × List FmCall × Option (List Nat) =>
      x ∈ r.2.1 → ∃ reg val, x = FmCall.write_reg reg val 0)
      (by first | exact hu | exact hd | (intro hx; simp at hx)) ?_
  intro hx
  simp at hx

theorem key_press_key_on_range (sym : Int) (shift ctrl is_repeat : Bool) (st : State)
    (hoct : st.octave ≤ 7) (hsel : SelectionOk st) (o n c : Nat)
    (hx : FmCall.key_on o n c ∈ (key_press sym shift ctrl is_repeat st).2.1) :
    o ≤ 9 ∧ n ≤ 11 ∧ c ≤ 2 := by
  have hw := key_press_switch_calls sym shift ctrl st (FmCall.key_on o n c)
  have ho := (key_press_switch_inv sym shift ctrl st ⟨hsel, hoct⟩).2
  obtain ⟨hn, hi⟩ := key_note_range sym
  unfold key_press at hx
  simp only at hx
  split_ifs at hx with h1 h2
  · simp only [List.mem_append] at hx
    rcases hx with hx | hx
    · obtain ⟨reg, val, e⟩ := hw hx
      cases e
    · obtain ⟨i, hi3, e⟩ := key_on_calls _ _ _ _ _ hx
      injection e with e1 e2 e3
      have hn2 : 0 ≤ (key_note sym).1 ∧ (key_note sym).1 ≤ 11 := by
        rcases hn with hn | hn
        · exact absurd hn h2
        · exact hn
      subst e1 e2 e3
      unfold u8
      omega
  · obtain ⟨reg, val, e⟩ := hw hx
    cases e
  · obtain ⟨reg, val, e⟩ := hw hx
    cases e

/-- C19 (as amended): in every state reachable from `ui_init`, every
`fm_key_on` call that `key_press` issues has octave in 0..9 (the octave shown,
0..7, plus 0, 1 or 2 for the row of the key), note in 0..11 and channel in
0..2, and every `fm_key_off` call that `key_off` issues has channel in 0..2. -/
theorem chip_call_ranges (st : State) (h : UiReachable st)
    (sym : Int) (shift ctrl is_repeat : Bool) :
    (∀ o n c, FmCall.key_on o n c ∈ (key_press sym shift ctrl is_repeat st).2.1 →
      o ≤ 9 ∧ n ≤ 11 ∧ c ≤ 2) ∧
    (∀ c, FmCall.key_off c ∈ (key_off sym st).2 → c ≤ 2) := by
  obtain ⟨hsel, hoct⟩ := uiReachable_inv st h
  refine ⟨fun o n c hx => key_press_key_on_range sym shift ctrl is_repeat st hoct hsel o n c hx,
    ?_⟩
  intro c hx
  obtain ⟨i, hi, e⟩ := key_off_calls sym st _ hx
  injection e with e1
  omega

/-- Instance of C19 (as amended): with the octave at 7, the key `p` plays
note 4 of octave 9 on channel 0. -/
theorem chip_call_ranges_witness :
    UiReachable sample_octave7 ∧
    FmCall.key_on 9 4 0 ∈ (key_press SDLK_p false false false sample_octave7).2.1 ∧
    (9 ≤ 9 ∧ 4 ≤ 11 ∧ 0 ≤ 2) :=
  have hs : UiReachable sample_octave7 :=
    UiReachable.key_down SDLK_EQUALS false false false _
      (UiReachable.key_down SDLK_EQUALS false false false _
        (UiReachable.key_down SDLK_EQUALS false false false _
          (UiReachable.key_down SDLK_EQUALS false false false _ (UiReachable.init none))))
  have hm : FmCall.key_on 9 4 0 ∈ (key_press SDLK_p false false false sample_octave7).2.1 := by
    decide
  ⟨hs, hm, (chip_call_ranges sample_octave7 hs SDLK_p false false false).1 9 4 0 hm⟩

/-- C19 fails as stated: the state `sample_octave7` is reachable from
`ui_init` (four presses of `=`), and there the key `q` makes `key_press` issue
`fm_key_on` with octave 8, outside 0..7. -/
theorem chip_call_ranges_counterexample :
    UiReachable sample_octave7 ∧
    (key_press SDLK_q false false false sample_octave7).2.1 = [FmCall.key_on 8 0 0] ∧
    ¬ (8 ≤ 7) :=
  ⟨UiReachable.key_down SDLK_EQUALS false false false _
      (UiReachable.key_down SDLK_EQUALS false false false _
        (UiReachable.key_down SDLK_EQUALS false false false _
          (UiReachable.key_down SDLK_EQUALS false false false _ (UiReachable.init none)))),
   by decide, by decide⟩

/-! ## C20: a parameter edit keeps the chip in step with the store -/

theorem chipReflects_iff (chip : Nat → Nat) (d : List Nat) :
    ChipReflects chip d ↔
      ∀ c, c < 3 →
        (∀ g, g < 6 → ∀ p, p < 4 → chip (0x30 + 16 * g + 4 * p + c) = rd d (1 + 4 * g + p)) ∧
        chip (0xB0 + c) = rd d 0 ∧ chip (0xB4 + c) = 0xC0 := by
  have e : full_dump d = dump_layout d 0 ++ dump_layout d 1 ++ dump_layout d 2 := by
    unfold full_dump
    rw [write_eif_regs_eq_layout d 0 (by decide), write_eif_regs_eq_layout d 1 (by decide),
      write_eif_regs_eq_layout d 2 (by decide)]
  unfold ChipReflects
  rw [e]
  constructor
  · intro h c hc
    have hm : ∀ x, x ∈ dump_layout d c → ChipHolds chip x := by
      intro x hx
      apply h
      interval_cases c <;> simp [hx]
    refine ⟨fun g hg p hp => ?_, ?_, ?_⟩
    · exact hm (FmCall.write_reg (0x30 + 16 * g + 4 * p + c) (rd d (1 + 4 * g + p)) 0)
        (by
          unfold dump_layout
          apply List.mem_append_left
          simp only [List.mem_flatMap, List.mem_map, List.mem_range]
          exact ⟨g, hg, p, hp, rfl⟩)
    · exact hm (FmCall.write_reg (0xB0 + c) (rd d 0) 0) (by simp [dump_layout])
    · exact hm (FmCall.write_reg (0xB4 + c) 0xC0 0) (by simp [dump_layout])
  · intro h x hx
    have hl : ∀ c, c < 3 → x ∈ dump_layout d c → ChipHolds chip x := by
      intro c hc hx
      obtain ⟨h1, h2, h3⟩ := h c hc
      unfold dump_layout at hx
      simp only [List.mem_append, List.mem_flatMap, List.mem_map, List.mem_range,
        List.mem_cons, List.mem_singleton, List.not_mem_nil, or_false] at hx
      rcases hx with ⟨g, hg, p, hp, rfl⟩ | rfl | rfl
      · exact h1 g hg p hp
      · exact h2
      · exact h3
    simp only [List.mem_append] at hx
    rcases hx with (hx | hx) | hx
    · exact hl 0 (by decide) hx
    · exact hl 1 (by decide) hx
    · exact hl 2 (by decide) hx

theorem chipReflects_image (chip : Nat → Nat) (st : State) (dest : List Nat)
    (hr : InRange st.instr_params) (hd : dest.length = 29) :
    ChipReflects chip (save_eif st dest) ↔ ChipImage chip st.instr_params := by
  rw [chipReflects_iff]
  unfold ChipImage
  have h0 := save_eif_inrange_zero st dest hr hd
  constructor
  · intro h c hc
    obtain ⟨h1, h2, h3⟩ := h c hc
    refine ⟨fun kind hkind k hk => ?_, by rw [h2, h0], h3⟩
    obtain ⟨s1, s5, s9, s13, s17, s21, -⟩ := save_eif_inrange st dest hr hd k hk
    have hp := perm_lt k hk
    have g0 := h1 0 (by decide) (perm k) hp
    have g1 := h1 1 (by decide) (perm k) hp
    have g2 := h1 2 (by decide) (perm k) hp
    have g3 := h1 3 (by decide) (perm k) hp
    have g4 := h1 4 (by decide) (perm k) hp
    have g5 := h1 5 (by decide) (perm k) hp
    norm_num at g0 g1 g2 g3 g4 g5
    rw [s1] at g0
    rw [s5] at g1
    rw [s9] at g2
    rw [s13] at g3
    rw [s17] at g4
    rw [s21] at g5
    interval_cases kind
    · simpa [reg_base, reg_value] using g1
    · simpa [reg_base, reg_value] using g5
    · simpa [reg_base, reg_value] using g2
    · simpa [reg_base, reg_value] using g3
    · simpa [reg_base, reg_value] using g4
    · simpa [reg_base, reg_value] using g5
    · simpa [reg_base, reg_value] using g0
    · simpa [reg_base, reg_value] using g0
    · simpa [reg_base, reg_value] using g2
  · intro h c hc
    obtain ⟨h1, h2, h3⟩ := h c hc
    refine ⟨fun g hg p hp => ?_, by rw [h2, h0], h3⟩
    obtain ⟨s1, s5, s9, s13, s17, s21, -⟩ :=
      save_eif_inrange st dest hr hd (perm p) (perm_lt p hp)
    have i1 := h1 MUL (by decide) (perm p) (perm_lt p hp)
    have i2 := h1 TL (by decide) (perm p) (perm_lt p hp)
    have i3 := h1 AR (by decide) (perm p) (perm_lt p hp)
    have i4 := h1 DR (by decide) (perm p) (perm_lt p hp)
    have i5 := h1 SR (by decide) (perm p) (perm_lt p hp)
    have i6 := h1 RR (by decide) (perm p) (perm_lt p hp)
    simp only [reg_base, reg_value, TL, SL, AR, DR, SR, RR, MUL, DT, RS] at i1 i2 i3 i4 i5 i6
    norm_num at i1 i2 i3 i4 i5 i6
    rw [perm_perm] at s1 s5 s9 s13 s17 s21 i1 i2 i3 i4 i5 i6
    interval_cases g
    · norm_num; rw [s1]; simpa [TL, SL, AR, DR, SR, RR, MUL, DT, RS] using i1
    · norm_num; rw [s5]; simpa [TL, SL, AR, DR, SR, RR, MUL, DT, RS] using i2
    · norm_num; rw [s9]; simpa [TL, SL, AR, DR, SR, RR, MUL, DT, RS] using i3
    · norm_num; rw [s13]; simpa [TL, SL, AR, DR, SR, RR, MUL, DT, RS] using i4
    · norm_num; rw [s17]; simpa [TL, SL, AR, DR, SR, RR, MUL, DT, RS] using i5
    · norm_num; rw [s21]; simpa [TL, SL, AR, DR, SR, RR, MUL, DT, RS] using i6

theorem chip_run_three (chip : Nat → Nat) (a v x : Nat) :
    chip_run chip [FmCall.write_reg (a + 0) v 0, FmCall.write_reg (a + 1) v 0,
      FmCall.write_reg (a + 2) v 0] x
      = if x = a + 2 then v else if x = a + 1 then v else if x = a then v else chip x := by
  simp [chip_run, chip_write]

theorem perm_inj {a b : Nat} (h : perm a = perm b) : a = b := by
  have := congrArg perm h
  rwa [perm_perm, perm_perm] at this

theorem reg_base_form (kind : Nat) : ∃ g, g < 6 ∧ reg_base kind = 0x30 + 16 * g := by
  unfold reg_base
  split_ifs
  · exact ⟨0, by decide, rfl⟩
  · exact ⟨1, by decide, rfl⟩
  · exact ⟨2, by decide, rfl⟩
  · exact ⟨3, by decide, rfl⟩
  · exact ⟨4, by decide, rfl⟩
  · exact ⟨5, by decide, rfl⟩

theorem reg_value_same_group (q : List Nat) (kind1 kind2 j : Nat) (h1 : kind1 < 9)
    (h2 : kind2 < 9) (hb : reg_base kind1 = reg_base kind2) :
    reg_value q kind1 j = reg_value q kind2 j := by
  interval_cases kind1 <;> interval_cases kind2 <;>
    first
    | rfl
    | (exfalso; revert hb; decide)

theorem reg_value_congr (q2 q : List Nat) (kind j : Nat) (hkind : kind < 9)
    (h : ∀ kindA, kindA < 9 → reg_base kindA = reg_base kind →
      rd q2 (kindA * 4 + j) = rd q (kindA * 4 + j)) :
    reg_value q2 kind j = reg_value q kind j := by
  interval_cases kind
  · simp only [reg_value, TL, SL, AR, DR, SR, RR, MUL, DT, RS]
    simpa using h 0 (by decide) (by decide)
  · have a := h 5 (by decide) (by decide)
    have b := h 1 (by decide) (by decide)
    simp [reg_value, TL, SL, AR, DR, SR, RR, MUL, DT, RS, a, b]
  · have a := h 2 (by decide) (by decide)
    have b := h 8 (by decide) (by decide)
    simp [reg_value, TL, SL, AR, DR, SR, RR, MUL, DT, RS, a, b]
  · have a := h 3 (by decide) (by decide)
    simp [reg_value, TL, SL, AR, DR, SR, RR, MUL, DT, RS, a]
  · have a := h 4 (by decide) (by decide)
    simp [reg_value, TL, SL, AR, DR, SR, RR, MUL, DT, RS, a]
  · have a := h 5 (by decide) (by decide)
    have b := h 1 (by decide) (by decide)
    simp [reg_value, TL, SL, AR, DR, SR, RR, MUL, DT, RS, a, b]
  · have a := h 6 (by decide) (by decide)
    have b := h 7 (by decide) (by decide)
    simp [reg_value, TL, SL, AR, DR, SR, RR, MUL, DT, RS, a, b]
  · have a := h 6 (by decide) (by decide)
    have b := h 7 (by decide) (by decide)
    simp [reg_value, TL, SL, AR, DR, SR, RR, MUL, DT, RS, a, b]
  · have a := h 2 (by decide) (by decide)
    have b := h 8 (by decide) (by decide)
    simp [reg_value, TL, SL, AR, DR, SR, RR, MUL, DT, RS, a, b]

theorem rd_wr8_ne (q : List Nat) (i j X : Nat) (h : j ≠ i) : rd (wr8 q i X) j = rd q j := by
  rw [rd_wr8, if_neg (fun hc => h hc.2)]

theorem reg_value_wr8_other (q : List Nat) (kind kind2 k j X : Nat) (hkind2 : kind2 < 9)
    (hk : k < 4) (hj : j < 4)
    (h : reg_base kind2 ≠ reg_base kind ∨ j ≠ k ∨ 9 ≤ kind) :
    reg_value (wr8 q (offs_of kind k) X) kind2 j = reg_value q kind2 j := by
  apply reg_value_congr _ _ _ _ hkind2
  intro kindA hA hb
  apply rd_wr8_ne
  unfold offs_of FB_OFFS ALG_OFFS FB ALG
  split_ifs
  · omega
  · omega
  · intro e
    have hkA : kindA = kind := by omega
    have hjk : j = k := by omega
    subst hkA
    rcases h with h | h | h
    · exact h hb.symm
    · exact h hjk
    · omega

theorem chipImage_edit (chip : Nat → Nat) (q : List Nat) (kind k X : Nat)
    (hkind : kind < 9) (hk : k < 4) (h : ChipImage chip q) :
    ChipImage
      (chip_run chip
        [FmCall.write_reg (reg_base kind + 4 * perm k + 0)
           (reg_value (wr8 q (offs_of kind k) X) kind k) 0,
         FmCall.write_reg (reg_base kind + 4 * perm k + 1)
           (reg_value (wr8 q (offs_of kind k) X) kind k) 0,
         FmCall.write_reg (reg_base kind + 4 * perm k + 2)
           (reg_value (wr8 q (offs_of kind k) X) kind k) 0])
      (wr8 q (offs_of kind k) X) := by
  intro c hc
  obtain ⟨h1, h2, h3⟩ := h c hc
  have hP := perm_lt k hk
  obtain ⟨g, hg, eg⟩ := reg_base_form kind
  have hoffs : offs_of kind k < 36 := by
    unfold offs_of FB ALG
    split_ifs <;> omega
  refine ⟨fun kind2 hkind2 j hj => ?_, ?_, ?_⟩
  · rw [chip_run_three]
    obtain ⟨g2, hg2, eg2⟩ := reg_base_form kind2
    have hPj := perm_lt j hj
    by_cases hsame : reg_base kind2 = reg_base kind ∧ j = k
    · obtain ⟨hb, hjk⟩ := hsame
      subst hjk
      rw [reg_value_same_group _ kind2 kind j hkind2 hkind hb, hb]
      split_ifs <;> first | rfl | omega
    · have hv := reg_value_wr8_other q kind kind2 k j X hkind2 hk hj (by tauto)
      rw [hv, ← h1 kind2 hkind2 j hj]
      have hne : g2 ≠ g ∨ perm j ≠ perm k := by
        by_contra hc2
        push_neg at hc2
        apply hsame
        exact ⟨by rw [eg, eg2, hc2.1], perm_inj hc2.2⟩
      rw [if_neg (by omega), if_neg (by omega), if_neg (by omega)]
  · rw [chip_run_three, rd_wr8_ne _ _ _ _ (by unfold ALG_OFFS; omega),
      rd_wr8_ne _ _ _ _ (by unfold FB_OFFS; omega), ← h2]
    rw [if_neg (by omega), if_neg (by omega), if_neg (by omega)]
  · rw [chip_run_three, ← h3]
    rw [if_neg (by omega), if_neg (by omega), if_neg (by omega)]

theorem chipImage_edit_global (chip : Nat → Nat) (q : List Nat) (kind k X : Nat)
    (hkind : kind = FB ∨ kind = ALG) (hk : k < 4) (h : ChipImage chip q) :
    ChipImage
      (chip_run chip
        [FmCall.write_reg 0xB0
           (rd (wr8 q (offs_of kind k) X) ALG_OFFS |||
             (rd (wr8 q (offs_of kind k) X) FB_OFFS <<< 3)) 0,
         FmCall.write_reg 0xB1
           (rd (wr8 q (offs_of kind k) X) ALG_OFFS |||
             (rd (wr8 q (offs_of kind k) X) FB_OFFS <<< 3)) 0,
         FmCall.write_reg 0xB2
           (rd (wr8 q (offs_of kind k) X) ALG_OFFS |||
             (rd (wr8 q (offs_of kind k) X) FB_OFFS <<< 3)) 0])
      (wr8 q (offs_of kind k) X) := by
  intro c hc
  obtain ⟨h1, h2, h3⟩ := h c hc
  have h9 : 9 ≤ kind := by
    unfold FB ALG at hkind
    omega
  have e := chip_run_three chip 0xB0
    (rd (wr8 q (offs_of kind k) X) ALG_OFFS ||| (rd (wr8 q (offs_of kind k) X) FB_OFFS <<< 3))
  refine ⟨fun kind2 hkind2 j hj => ?_, ?_, ?_⟩
  · obtain ⟨g2, hg2, eg2⟩ := reg_base_form kind2
    have hPj := perm_lt j hj
    rw [reg_value_wr8_other q kind kind2 k j X hkind2 hk hj (Or.inr (Or.inr h9)),
      ← h1 kind2 hkind2 j hj]
    refine (e _).trans ?_
    rw [if_neg (by omega), if_neg (by omega), if_neg (by omega)]
  · refine (e _).trans ?_
    split_ifs <;> first | rfl | omega
  · rw [← h3]
    refine (e _).trans ?_
    rw [if_neg (by omega), if_neg (by omega), if_neg (by omega)]

/-- C20: model the chip as a map from register address to value. If the
store is in range and at every address written by the full dump of
`save_eif`'s encoding of the store the map holds the value that dump writes,
then after `change_param` (valid selection, any flags) the map updated by the
writes of `change_param` again holds, at every such address, the value
written by the full dump of the encoding of the updated store. -/
theorem incremental_update_agrees (inc high_nybble to_max : Bool) (st : State)
    (chip : Nat → Nat) (dest dest2 : List Nat)
    (hop : st.sel_op < 4) (hp : st.sel_param ≤ 10) (hr : InRange st.instr_params)
    (hd : dest.length = 29) (hd2 : dest2.length = 29)
    (h : ChipReflects chip (save_eif st dest)) :
    ChipReflects (chip_run chip (change_param inc high_nybble to_max st).2)
      (save_eif (change_param inc high_nybble to_max st).1 dest2) := by
  have hr2 := change_param_inRange inc high_nybble to_max st hop hp hr
  have hv : rd st.instr_params (offs_of st.sel_param st.sel_op) < 256 := by
    have h1 := inRange_rd_offs hr st.sel_param st.sel_op hp hop
    have h2 := max_value_lt st.sel_param
    omega
  have hstore : (change_param inc high_nybble to_max st).1.instr_params = _ :=
    congrArg State.instr_params (change_param_store inc high_nybble to_max st hop hp hv)
  have hi := (chipReflects_image chip st dest hr hd).1 h
  rw [chipReflects_image _ _ dest2 hr2 hd2]
  obtain ⟨c1, c2⟩ := change_param_calls inc high_nybble to_max st hop hp hr
  by_cases hk : st.sel_param < FB
  · rw [c1 hk, hstore]
    exact chipImage_edit chip _ _ _ _ hk hop hi
  · have hg : st.sel_param = FB ∨ st.sel_param = ALG := by
      unfold FB ALG at *
      omega
    rw [c2 hg, hstore]
    exact chipImage_edit_global chip _ _ _ _ hg hop hi

/-- Instance of C20: the chip holds the dump of `sample_mul`, and MUL of
operator 1 is incremented. -/
theorem incremental_update_agrees_witness :
    ChipReflects sample_chip (save_eif sample_mul sample_dest) ∧
    ChipReflects (chip_run sample_chip (change_param true false false sample_mul).2)
      (save_eif (change_param true false false sample_mul).1 sample_dest) :=
  have h : ChipReflects sample_chip (save_eif sample_mul sample_dest) := by decide
  ⟨h, incremental_update_agrees true false false sample_mul sample_chip sample_dest sample_dest
    (by decide) (by decide) (by decide) (by decide) (by decide) h⟩

/-! ## C21: decoding then encoding clears the reserved bits -/

theorem eif_mask_lt (i : Nat) : eif_mask i < 256 := by
  unfold eif_mask
  split_ifs <;> decide

set_option maxRecDepth 100000 in
theorem land_byte (x : Nat) (hx : x < 256) : x &&& 0xFF = x := by
  have h : ∀ x, x < 256 → x &&& 0xFF = x := by decide
  exact h x hx

theorem save_load_all (b : List Nat) (st : State) (dest : List Nat)
    (hb : IsBytes b 29) (hl : st.instr_params.length = 38) (hd : dest.length = 29)
    (i : Nat) (hi : i < 29) :
    rd (save_eif (load_eif b st).1 dest) i = rd b i &&& eif_mask i := by
  by_cases h25 : i < 25
  · exact save_load_byte b st dest hl hd (fun j hj => hb.2 j (by omega)) i h25
  · have hz := (save_eif_inrange (load_eif b st).1 dest (load_eif_inRange b st hl) hd
      (perm (i - 25)) (perm_lt _ (by omega))).2.2.2.2.2.2
    rw [perm_perm, show 25 + (i - 25) = i by omega] at hz
    have hm : eif_mask i = 0 := by
      unfold eif_mask
      split_ifs <;> first | rfl | omega
    rw [hz, hm, Nat.and_zero]

theorem save_load_idem (b : List Nat) (st st2 : State) (dest dest2 : List Nat)
    (hb : IsBytes b 29) (hl : st.instr_params.length = 38)
    (hl2 : st2.instr_params.length = 38) (hd : dest.length = 29) (hd2 : dest2.length = 29) :
    save_eif (load_eif (save_eif (load_eif b st).1 dest) st2).1 dest2
      = save_eif (load_eif b st).1 dest := by
  have hn := save_load_all b st dest hb hl hd
  have hlen : (save_eif (load_eif b st).1 dest).length = 29 := by rw [length_save_eif, hd]
  have hnb : IsBytes (save_eif (load_eif b st).1 dest) 29 := by
    refine ⟨hlen, fun i hi => ?_⟩
    rw [hn i hi]
    exact lt_of_le_of_lt Nat.and_le_right (eif_mask_lt i)
  apply ext_rd (by rw [length_save_eif, hd2, hlen])
  intro i hi
  rw [length_save_eif, hd2] at hi
  rw [save_load_all _ st2 dest2 hnb hl2 hd2 i hi, hn i hi, Nat.and_assoc, Nat.and_self]

/-- C21: for every 29-byte input `b`, `save_eif` after `load_eif b` yields `b`
with the reserved bits cleared: byte 0 & 0x3F, bytes 1..8 & 0x7F, bytes 9..12
& 0xDF, bytes 13..20 & 0x1F, bytes 21..24 unchanged, bytes 25..28 = 0.
Decoding and encoding the result a second time returns the same bytes, and
the result equals `b` exactly when `b` has no reserved bit set. -/
theorem decode_encode_normalises (b : List Nat) (st st2 : State) (dest dest2 : List Nat)
    (hb : IsBytes b 29) (hl : st.instr_params.length = 38)
    (hl2 : st2.instr_params.length = 38) (hd : dest.length = 29) (hd2 : dest2.length = 29) :
    (save_eif (load_eif b st).1 dest).length = 29 ∧
    rd (save_eif (load_eif b st).1 dest) 0 = rd b 0 &&& 0x3F ∧
    (∀ i, 1 ≤ i → i ≤ 8 → rd (save_eif (load_eif b st).1 dest) i = rd b i &&& 0x7F) ∧
    (∀ i, 9 ≤ i → i ≤ 12 → rd (save_eif (load_eif b st).1 dest) i = rd b i &&& 0xDF) ∧
    (∀ i, 13 ≤ i → i ≤ 20 → rd (save_eif (load_eif b st).1 dest) i = rd b i &&& 0x1F) ∧
    (∀ i, 21 ≤ i → i ≤ 24 → rd (save_eif (load_eif b st).1 dest) i = rd b i) ∧
    (∀ i, 25 ≤ i → i ≤ 28 → rd (save_eif (load_eif b st).1 dest) i = 0) ∧
    save_eif (load_eif (save_eif (load_eif b st).1 dest) st2).1 dest2
      = save_eif (load_eif b st).1 dest ∧
    (save_eif (load_eif b st).1 dest = b ↔ ReservedClear b) := by
  have hn := save_load_all b st dest hb hl hd
  have hlen : (save_eif (load_eif b st).1 dest).length = 29 := by rw [length_save_eif, hd]
  have hm : ∀ i m, i < 29 → eif_mask i = m →
      rd (save_eif (load_eif b st).1 dest) i = rd b i &&& m := by
    intro i m hi e
    rw [hn i hi, e]
  refine ⟨hlen, hm 0 _ (by decide) rfl, ?_, ?_, ?_, ?_, ?_,
    save_load_idem b st st2 dest dest2 hb hl hl2 hd hd2, ?_⟩
  · intro i h1 h2
    exact hm i _ (by omega) (by unfold eif_mask; split_ifs <;> first | rfl | omega)
  · intro i h1 h2
    exact hm i _ (by omega) (by unfold eif_mask; split_ifs <;> first | rfl | omega)
  · intro i h1 h2
    exact hm i _ (by omega) (by unfold eif_mask; split_ifs <;> first | rfl | omega)
  · intro i h1 h2
    have h := hm i 0xFF (by omega) (by unfold eif_mask; split_ifs <;> first | rfl | omega)
    rw [h]
    exact land_byte _ (hb.2 i (by omega))
  · intro i h1 h2
    have h := hm i 0 (by omega) (by unfold eif_mask; split_ifs <;> first | rfl | omega)
    rw [h, Nat.and_zero]
  · constructor
    · intro e i hi
      have h := hn i hi
      rw [e] at h
      exact h.symm
    · intro h
      apply ext_rd (by rw [hlen, hb.1])
      intro i hi
      rw [hlen] at hi
      rw [hn i hi, h i hi]

/-- Instance of C21 at the input with every bit set: byte 5 comes back as
0x7F, a second round changes nothing, and the result differs from the input,
which has reserved bits set. -/
theorem decode_encode_normalises_witness :
    IsBytes sample_all_bits 29 ∧
    rd (save_eif (load_eif sample_all_bits state_zero).1 sample_dest) 5
      = rd sample_all_bits 5 &&& 0x7F ∧
    save_eif (load_eif (save_eif (load_eif sample_all_bits state_zero).1 sample_dest)
        sample_state).1 sample_dest
      = save_eif (load_eif sample_all_bits state_zero).1 sample_dest ∧
    (save_eif (load_eif sample_all_bits state_zero).1 sample_dest = sample_all_bits ↔
      ReservedClear sample_all_bits) :=
  have h := decode_encode_normalises sample_all_bits state_zero sample_state sample_dest
    sample_dest (by decide) (by decide) (by decide) (by decide) (by decide)
  ⟨by decide, h.2.2.1 5 (by decide) (by decide), h.2.2.2.2.2.2.2.1, h.2.2.2.2.2.2.2.2⟩

end Pseym
